import Mathlib

/-!
# Verification of the invoice PDF-to-JSON extraction engine

Shallow embedding of `pdf_to_json_extractor.py` (single-module Python
program).  Python strings are modelled as Lean `String`/`List Char`;
Python `float` values are modelled exactly by `PyNum`: a finite decimal
(`Dec`, an integer with a power-of-ten scale), an infinity, or nan.  The
decimal model is exact for every value the program can build (its floats
all come from decimal literals), and deviations of binary floating point
from exact decimal arithmetic can only appear beyond 2^53 or past the
second decimal place in ways the claims never exercise.

Each Python function keeps its source name (`parse_amount`, `clean_text`,
`validate_data`, `parse_pdf_content`, ...).  Regular expressions from the
source are embedded through a small executable backtracking regex engine
that mirrors CPython `re` semantics for the constructs the source uses
(leftmost search, greedy/lazy quantifiers, character classes, lookahead,
IGNORECASE), and `datetime.strptime` is modelled by an executable
directive-by-directive parser mirroring CPython `_strptime`.

All definitions come first, followed by all theorems.
-/

namespace IGExtract

/-- The set of characters matched by the whitespace class (and stripped
by the Python strip method) for CPython str patterns: ASCII whitespace,
the information separators, and the Unicode whitespace code points. -/
def isPySpace (c : Char) : Bool :=
  c = ' ' || c = '\t' || c = '\n' || c = '\r' || c = '\x0b' || c = '\x0c' ||
  c = '\x1c' || c = '\x1d' || c = '\x1e' || c = '\x1f' ||
  c = '\x85' || c = '\xa0' || c = '\u1680' ||
  ('\u2000' ≤ c && c ≤ '\u200a') ||
  c = '\u2028' || c = '\u2029' || c = '\u202f' || c = '\u205f' || c = '\u3000'

/-- The Python strip method on a character list. -/
def pyStripL (l : List Char) : List Char :=
  ((l.dropWhile isPySpace).reverse.dropWhile isPySpace).reverse

/-- The Python strip method on a string. -/
def pyStrip (s : String) : String :=
  String.mk (pyStripL s.toList)

/-! ## clean_text (source lines 68-76)

The source applies four substitutions and a strip, in order: collapse
every whitespace run to one space; delete non-ASCII characters; collapse
every horizontal-whitespace run to one space; cap newline runs of three
or more at two; strip.  A global substitution of a one-character-class
run `P+` by a single character is `collapseRuns`, and deleting every
character of a class is a filter. -/

/-- Worker for `collapseRuns`: the flag records whether the previous
character was part of a `p`-run (in which case further `p`-characters
are absorbed into the same replacement). -/
def collapseAux (p : Char → Bool) (rep : Char) : Bool → List Char → List Char
  | _, [] => []
  | inRun, c :: rest =>
    if p c then
      if inRun then collapseAux p rep true rest
      else rep :: collapseAux p rep true rest
    else c :: collapseAux p rep false rest

/-- Replace every maximal run of `p`-characters by the single character
`rep` (the effect of a global regex substitution of the class-run `P+`
for a one-character class `P`). -/
def collapseRuns (p : Char → Bool) (rep : Char) (l : List Char) : List Char :=
  collapseAux p rep false l

/-- Render a pending run of `n` newlines: capped at two when three or
more, kept as-is otherwise. -/
def emitNl (n : Nat) : List Char :=
  if 3 ≤ n then ['\n', '\n'] else List.replicate n '\n'

/-- Worker for `capNewlines`; the counter is the length of the newline
run read so far. -/
def capAux : List Char → Nat → List Char
  | [], n => emitNl n
  | c :: rest, n =>
    if c = '\n' then capAux rest (n + 1)
    else emitNl n ++ c :: capAux rest 0

/-- The newline-capping substitution: runs of three or more newlines are
capped at two; shorter runs are kept as they are. -/
def capNewlines (l : List Char) : List Char := capAux l 0

/-- ASCII test for the non-ASCII-deleting substitution. -/
def isAsciiCh (c : Char) : Bool := c.val ≤ 0x7F

/-- Horizontal whitespace `[^\S\n]`: whitespace other than newline. -/
def isHorizWS (c : Char) : Bool := isPySpace c && !(c = '\n')

/-- `clean_text` on character lists. -/
def cleanTextL (l : List Char) : List Char :=
  pyStripL (capNewlines (collapseRuns isHorizWS ' '
    ((collapseRuns isPySpace ' ' l).filter isAsciiCh)))

/-- `clean_text` (source lines 68-76). -/
def clean_text (s : String) : String :=
  String.mk (cleanTextL s.toList)

/-! ## Exact decimals and Python floats -/

/-- An exact decimal number: the value is `n / 10 ^ s`.  Values built by
the program are kept in lowest power-of-ten terms through `mkDec`. -/
structure Dec where
  n : ℤ
  s : ℕ
  deriving DecidableEq, Repr

/-- Strip factors of ten shared by numerator and scale. -/
def stripZeros : ℤ → ℕ → Dec
  | n, 0 => ⟨n, 0⟩
  | n, s + 1 => if Int.emod n 10 = 0 then stripZeros (Int.ediv n 10) s else ⟨n, s + 1⟩

/-- Build the canonical decimal with value `n / 10 ^ s`. -/
def mkDec (n : ℤ) (s : ℕ) : Dec := stripZeros n s

/-- The rational value of a decimal. -/
def Dec.toRat (d : Dec) : ℚ := (d.n : ℚ) / (10 : ℚ) ^ d.s

/-- Value comparison by cross-multiplication. -/
def Dec.le (a b : Dec) : Prop := a.n * (10 : ℤ) ^ b.s ≤ b.n * (10 : ℤ) ^ a.s

/-- Strict value comparison by cross-multiplication. -/
def Dec.lt (a b : Dec) : Prop := a.n * (10 : ℤ) ^ b.s < b.n * (10 : ℤ) ^ a.s

instance : LE Dec := ⟨Dec.le⟩

instance : LT Dec := ⟨Dec.lt⟩

instance (a b : Dec) : Decidable (a ≤ b) :=
  inferInstanceAs (Decidable (a.n * (10 : ℤ) ^ b.s ≤ b.n * (10 : ℤ) ^ a.s))

instance (a b : Dec) : Decidable (a < b) :=
  inferInstanceAs (Decidable (a.n * (10 : ℤ) ^ b.s < b.n * (10 : ℤ) ^ a.s))

/-- The decimal with integer value `k`. -/
def intDec (k : ℤ) : Dec := ⟨k, 0⟩

def Dec.neg (a : Dec) : Dec := ⟨-a.n, a.s⟩

def Dec.add (a b : Dec) : Dec :=
  mkDec (a.n * (10 : ℤ) ^ b.s + b.n * (10 : ℤ) ^ a.s) (a.s + b.s)

def Dec.sub (a b : Dec) : Dec := Dec.add a (Dec.neg b)

/-- Absolute value. -/
def Dec.absD (a : Dec) : Dec := ⟨(a.n.natAbs : ℤ), a.s⟩

/-- Division by 100 (exact in the decimal model). -/
def Dec.div100 (a : Dec) : Dec := mkDec a.n (a.s + 2)

/-- Whether the value is an integer, i.e. the scale divides the
numerator; this is the test comparing the parsed amount with its integer
truncation in the source. -/
def Dec.isWholeB (a : Dec) : Bool := Int.emod a.n ((10 : ℤ) ^ a.s) == 0

/-- Multiply a decimal by ten to the power `e`, negated when `esign`. -/
def decTimesPow10 (d : Dec) (esign : Bool) (e : ℕ) : Dec :=
  if esign then mkDec d.n (d.s + e) else mkDec (d.n * (10 : ℤ) ^ e) d.s

/-- A CPython `float` value: finite (exact decimal), infinity, or nan. -/
inductive PyNum where
  | fin (d : Dec)
  | inf (neg : Bool)
  | nan
  deriving DecidableEq, Repr

/-- Digit character to value. -/
def digitVal (c : Char) : Nat := c.toNat - '0'.toNat

def isDigitCh (c : Char) : Bool := '0' ≤ c && c ≤ '9'

/-- Natural-number value of a digit string. -/
def digitsToNat (l : List Char) : Nat :=
  l.foldl (fun acc c => acc * 10 + digitVal c) 0

/-- Split a list of digit-or-underscore characters into its digits,
checking the CPython rule that an underscore may only stand between two
digits. -/
def stripUnderscores : List Char → Option (List Char)
  | [] => some []
  | ['_'] => none
  | '_' :: c :: rest =>
      if isDigitCh c then
        match stripUnderscores (c :: rest) with
        | some ds => some ds
        | none => none
      else none
  | c :: rest =>
      if isDigitCh c then
        match stripUnderscores rest with
        | some ds => some (c :: ds)
        | none => none
      else none

/-- Take the leading run of digit/underscore characters. -/
def takeDigitRun (l : List Char) : List Char × List Char :=
  (l.takeWhile (fun c => isDigitCh c || c = '_'),
   l.dropWhile (fun c => isDigitCh c || c = '_'))

def lowerCh (c : Char) : Char := c.toLower

/-- Case-insensitive comparison of a list against a lowercase word. -/
def matchesWord (l : List Char) (w : List Char) : Bool :=
  l.map lowerCh = w

/-- The body of CPython `float(str)` after sign removal: digit forms
(`123`, `1.5`, `.5`, `1.`, with optional exponent and underscores) and the
words `inf`, `infinity`, `nan` (case-insensitive). -/
def parseFloatBody (l : List Char) (neg : Bool) : Option PyNum :=
  if matchesWord l ['i', 'n', 'f'] || matchesWord l ['i', 'n', 'f', 'i', 'n', 'i', 't', 'y'] then
    some (PyNum.inf neg)
  else if matchesWord l ['n', 'a', 'n'] then
    some PyNum.nan
  else
    let (intRun, rest1) := takeDigitRun l
    let (fracRun, rest2) :=
      match rest1 with
      | '.' :: r => let (f, r2) := takeDigitRun r; (some f, r2)
      | _ => (none, rest1)
    let expPart : Option (Option (Bool × List Char)) :=
      match rest2 with
      | [] => some none
      | e :: r =>
        if e = 'e' || e = 'E' then
          let (esign, r2) :=
            match r with
            | '+' :: r2 => (false, r2)
            | '-' :: r2 => (true, r2)
            | _ => (false, r)
          let (eRun, r3) := takeDigitRun r2
          if r3 = [] && eRun ≠ [] then some (some (esign, eRun)) else none
        else none
    match expPart with
    | none => none
    | some expInfo =>
      match stripUnderscores intRun, (fracRun.map stripUnderscores) with
      | some ids, some (some fds) =>
        -- digits, a decimal point, digits: at least one digit overall
        if ids = [] && fds = [] then none
        else
          let base := mkDec (digitsToNat (ids ++ fds) : ℤ) fds.length
          let base := if neg then Dec.neg base else base
          match expInfo with
          | none => some (PyNum.fin base)
          | some (esign, eRun) =>
            match stripUnderscores eRun with
            | some eds => some (PyNum.fin (decTimesPow10 base esign (digitsToNat eds)))
            | none => none
      | some ids, none =>
        -- no decimal point: at least one digit
        if ids = [] then none
        else
          let base := mkDec (digitsToNat ids : ℤ) 0
          let base := if neg then Dec.neg base else base
          match expInfo with
          | none => some (PyNum.fin base)
          | some (esign, eRun) =>
            match stripUnderscores eRun with
            | some eds => some (PyNum.fin (decTimesPow10 base esign (digitsToNat eds)))
            | none => none
      | _, _ => none

/-- CPython `float(str)`: strips surrounding whitespace, reads an optional
sign, then a numeric body.  Raising `ValueError` is modelled as `none`. -/
def pyFloat (s : String) : Option PyNum :=
  let l := pyStripL s.toList
  match l with
  | '+' :: rest => parseFloatBody rest false
  | '-' :: rest => parseFloatBody rest true
  | _ => parseFloatBody l false

/-- Round one hundred times the value half-to-even to an integer (the
rounding used when formatting a value with two decimal places). -/
def roundHundredths (d : Dec) : ℤ :=
  let P : ℤ := (10 : ℤ) ^ d.s
  let a : ℤ := d.n * 100
  let m := Int.ediv a P
  let r := Int.emod a P
  if P < 2 * r then m + 1
  else if 2 * r < P then m
  else if Int.emod m 2 = 0 then m else m + 1

/-- Zero-pad a natural number to two digits. -/
def pad2 (n : Nat) : String :=
  if n < 10 then "0" ++ toString n else toString n

/-- Python two-decimal fixed formatting on the exact model: nan and
infinities print their names; a finite value is rounded half-to-even at
two decimals, with the sign of the value preserved (so a value of minus
one thousandth prints with a minus sign before 0.00, as in Python). -/
def format2 : PyNum → String
  | PyNum.nan => "nan"
  | PyNum.inf neg => if neg then "-inf" else "inf"
  | PyNum.fin d =>
    let v := roundHundredths d
    let sign := if d.n < 0 then "-" else ""
    let m := v.natAbs
    sign ++ toString (m / 100) ++ "." ++ pad2 (m % 100)

/-- The OCR digit/letter repairs of `parse_amount` (source lines 97-102),
applied to every character of the token: the letters i, I, l become 1,
and O, o become 0. -/
def ocrFixCh (c : Char) : Char :=
  if c = 'i' then '1'
  else if c = 'I' then '1'
  else if c = 'l' then '1'
  else if c = 'O' then '0'
  else if c = 'o' then '0'
  else c

/-- Currency-symbol class removed from the amount token. -/
def isCurrencyCh (c : Char) : Bool :=
  c = '£' || c = '$' || c = '€' || c = '¥'

/-- Comma-or-whitespace class removed from the amount token. -/
def isCommaSpaceCh (c : Char) : Bool :=
  c = ',' || isPySpace c

/-- The cleaned token that `parse_amount` hands to `float` (source lines
92-107): strip, drop currency symbols, drop commas/whitespace, map a lone
dash to `0`, apply the OCR repairs, and convert a fully parenthesised
token to a leading minus sign. -/
def amountToken (text : String) : List Char :=
  let amount := pyStripL text.toList
  let amount := amount.filter (fun c => !(isCurrencyCh c))
  let amount := amount.filter (fun c => !(isCommaSpaceCh c))
  let amount := if amount = ['-'] then ['0'] else amount
  let amount := amount.map ocrFixCh
  match amount with
  | '(' :: rest =>
    if rest ≠ [] && rest.getLast? = some ')' then '-' :: rest.dropLast else amount
  | _ => amount

/-- The decimal-shift heuristic and final formatting of `parse_amount`
(source lines 110-122).  For a positive infinity the source would raise
OverflowError at the integer conversion; that value is unreachable from
the digit-only captures of the program, and is formatted directly here. -/
def shiftFormat : PyNum → String
  | PyNum.fin d =>
    if intDec 1000 ≤ d ∧ Dec.isWholeB d = true then
      if intDec 10000 ≤ d then
        if intDec 10 ≤ Dec.div100 d ∧ Dec.div100 d ≤ intDec 10000 then
          format2 (PyNum.fin (Dec.div100 d))
        else format2 (PyNum.fin d)
      else format2 (PyNum.fin d)
    else format2 (PyNum.fin d)
  | x => format2 x

/-- `parse_amount` (source lines 86-124). -/
def parse_amount (text : String) : String :=
  if text = "" then ""
  else
    match pyFloat (String.mk (amountToken text)) with
    | none => ""
    | some v => shiftFormat v

/-- The separation relation: adjacent characters are not both in class
`p`. -/
def sepRel (p : Char → Bool) (a b : Char) : Prop := p a = false ∨ p b = false

/-- The normal form produced by `clean_text`: ASCII characters only, every
whitespace character is a plain space, no two adjacent whitespace
characters, and no leading or trailing whitespace. -/
structure CleanForm (l : List Char) : Prop where
  ascii : ∀ x ∈ l, isAsciiCh x = true
  spaces : ∀ x ∈ l, isPySpace x = true → x = ' '
  chain : List.Chain' (sepRel isPySpace) l
  headOk : ∀ c, l.head? = some c → isPySpace c = false
  lastOk : ∀ c, l.getLast? = some c → isPySpace c = false

/-! ## An executable regex engine

Backtracking matcher over positions in the subject, mirroring CPython
`re` for the constructs the source uses: literals, character classes,
alternation (leftmost preference), greedy and lazy repetition, one
capturing group, lookahead, fixed-string lookbehind, word boundary, and
the unanchored anchors of a pattern without the MULTILINE flag.  A match
returns the end position and the span of group one; `mrun` lists all
matches at a position in backtracking priority order, so the head is the
match CPython would produce.  Recursion is fuelled; the fuel passed by
the entry points exceeds the depth any of the embedded patterns can
reach, and every repetition in the embedded patterns consumes at least
one character per iteration. -/

inductive RE where
  | eps
  | lit (c : Char)
  | cls (neg : Bool) (ranges : List (Char × Char))
  | seq (a b : RE)
  | alt (a b : RE)
  | star (lazy : Bool) (r : RE)
  | cap (r : RE)
  | look (neg : Bool) (r : RE)
  | lookb (s : List Char)
  | wordB
  | bol
  | eol
  deriving Repr

/-- Number of syntax nodes, used to compute a sufficient fuel. -/
def sizeRE : RE → Nat
  | RE.eps => 1
  | RE.lit _ => 1
  | RE.cls _ _ => 1
  | RE.seq a b => sizeRE a + sizeRE b + 1
  | RE.alt a b => sizeRE a + sizeRE b + 1
  | RE.star _ r => sizeRE r + 1
  | RE.cap r => sizeRE r + 1
  | RE.look _ r => sizeRE r + 1
  | RE.lookb _ => 1
  | RE.wordB => 1
  | RE.bol => 1
  | RE.eol => 1

/-- Case-insensitive-aware character comparison. -/
def chEq (ci : Bool) (a b : Char) : Bool :=
  if ci then lowerCh a = lowerCh b else a = b

def upperCh (c : Char) : Char := c.toUpper

/-- Raw class membership. -/
def inRanges (rs : List (Char × Char)) (c : Char) : Bool :=
  rs.any (fun p => p.1 ≤ c && c ≤ p.2)

/-- Class test with negation and IGNORECASE (a character matches a class
case-insensitively when it or a case-swapped variant is in the class). -/
def clsTest (ci neg : Bool) (rs : List (Char × Char)) (c : Char) : Bool :=
  let base := inRanges rs c || (ci && (inRanges rs (lowerCh c) || inRanges rs (upperCh c)))
  if neg then !base else base

/-- Word character for the word-boundary assertion (ASCII model; the
program only matches word boundaries inside cleaned ASCII text). -/
def isWordCh (c : Char) : Bool :=
  ('a' ≤ c && c ≤ 'z') || ('A' ≤ c && c ≤ 'Z') || ('0' ≤ c && c ≤ '9') || c = '_'

/-- Merge the group-one spans of two sequenced parts (at most one part
carries the single capturing group of every embedded pattern). -/
def mergeCap (a b : Option (Nat × Nat)) : Option (Nat × Nat) :=
  match b with
  | some x => some x
  | none => a

/-- All matches of `r` at position `i` of `t`, as (end position, group
one span), in backtracking priority order. -/
def mrun (ci : Bool) (t : List Char) : Nat → RE → Nat → List (Nat × Option (Nat × Nat))
  | 0, _, _ => []
  | _ + 1, RE.eps, i => [(i, none)]
  | _ + 1, RE.lit c, i =>
    match t.get? i with
    | some d => if chEq ci d c then [(i + 1, none)] else []
    | none => []
  | _ + 1, RE.cls neg rs, i =>
    match t.get? i with
    | some d => if clsTest ci neg rs d then [(i + 1, none)] else []
    | none => []
  | fuel + 1, RE.seq a b, i =>
    (mrun ci t fuel a i).flatMap (fun x =>
      (mrun ci t fuel b x.1).map (fun y => (y.1, mergeCap x.2 y.2)))
  | fuel + 1, RE.alt a b, i => mrun ci t fuel a i ++ mrun ci t fuel b i
  | fuel + 1, RE.star lz r, i =>
    let once := (mrun ci t fuel r i).filter (fun x => i < x.1)
    let more := once.flatMap (fun x =>
      (mrun ci t fuel (RE.star lz r) x.1).map (fun y => (y.1, mergeCap x.2 y.2)))
    if lz then (i, none) :: more else more ++ [(i, none)]
  | fuel + 1, RE.cap r, i =>
    (mrun ci t fuel r i).map (fun x => (x.1, some (i, x.1)))
  | fuel + 1, RE.look neg r, i =>
    match mrun ci t fuel r i with
    | [] => if neg then [(i, none)] else []
    | _ :: _ => if neg then [] else [(i, none)]
  | _ + 1, RE.lookb s, i =>
    if s.length ≤ i && (t.drop (i - s.length)).take s.length = s then [(i, none)] else []
  | _ + 1, RE.wordB, i =>
    let before :=
      match t.get? (i - 1) with
      | some d => i ≠ 0 && isWordCh d
      | none => false
    let after :=
      match t.get? i with
      | some d => isWordCh d
      | none => false
    if before ≠ after then [(i, none)] else []
  | _ + 1, RE.bol, i => if i = 0 then [(i, none)] else []
  | _ + 1, RE.eol, i =>
    if i = t.length || (i + 1 = t.length && t.get? i = some '\n') then [(i, none)] else []

/-- Fuel that exceeds any backtracking depth for pattern `r` on `t`. -/
def reFuel (r : RE) (t : List Char) : Nat :=
  (sizeRE r + 2) * (t.length + 2)

/-- A regex match: start, end, and the group-one span. -/
structure RMatch where
  ms : Nat
  me : Nat
  grp : Option (Nat × Nat)
  deriving Repr, DecidableEq

/-- Scan start positions left to right (the countdown bounds the scan). -/
def searchFrom (ci : Bool) (r : RE) (t : List Char) : Nat → Nat → Option RMatch
  | 0, _ => none
  | k + 1, i =>
    if i ≤ t.length then
      match mrun ci t (reFuel r t) r i with
      | [] => searchFrom ci r t k (i + 1)
      | x :: _ => some ⟨i, x.1, x.2⟩
    else none

/-- CPython re.search: the leftmost match, with the backtracking
preference order of the pattern deciding among matches at the same
start. -/
def reSearch (ci : Bool) (r : RE) (t : List Char) : Option RMatch :=
  searchFrom ci r t (t.length + 1) 0

/-- The slice of `t` from `a` to `b`. -/
def subl (t : List Char) (a b : Nat) : List Char :=
  (t.drop a).take (b - a)

/-- Group one of a match. -/
def group1 (t : List Char) (m : RMatch) : List Char :=
  match m.grp with
  | some p => subl t p.1 p.2
  | none => []

/-- Group zero (the whole match). -/
def group0 (t : List Char) (m : RMatch) : List Char :=
  subl t m.ms m.me

/-- Worker for global substitution: emit from position `i`, replacing
each successive leftmost match (an empty match advances one character,
as in CPython). -/
def reSubFrom (ci : Bool) (r : RE) (repl : List Char) (t : List Char) :
    Nat → Nat → List Char
  | 0, i => t.drop i
  | k + 1, i =>
    match searchFrom ci r t (t.length + 1 - i) i with
    | none => t.drop i
    | some m =>
      subl t i m.ms ++ repl ++
        (if m.ms < m.me then reSubFrom ci r repl t k m.me
         else match t.get? m.me with
           | some c => c :: reSubFrom ci r repl t k (m.me + 1)
           | none => [])

/-- CPython re.sub with a literal replacement. -/
def reSub (ci : Bool) (r : RE) (repl : List Char) (t : List Char) : List Char :=
  reSubFrom ci r repl t (t.length + 1) 0

/-- Worker for findall: successive non-overlapping leftmost matches,
collecting group one (the form the source uses). -/
def findAllFrom (ci : Bool) (r : RE) (t : List Char) : Nat → Nat → List (List Char)
  | 0, _ => []
  | k + 1, i =>
    match searchFrom ci r t (t.length + 1 - i) i with
    | none => []
    | some m =>
      group1 t m ::
        (if m.ms < m.me then findAllFrom ci r t k m.me
         else if m.me < t.length then findAllFrom ci r t k (m.me + 1) else [])

/-- CPython re.findall for a single-group pattern. -/
def reFindAll (ci : Bool) (r : RE) (t : List Char) : List (List Char) :=
  findAllFrom ci r t (t.length + 1) 0

/-! ### Pattern construction helpers -/

/-- The never-matching pattern. -/
def reFail : RE := RE.cls false []

/-- Literal word. -/
def reStr (s : String) : RE :=
  s.toList.foldr (fun c acc => RE.seq (RE.lit c) acc) RE.eps

def reSeqL (l : List RE) : RE := l.foldr RE.seq RE.eps

def reAltL : List RE → RE
  | [] => reFail
  | [r] => r
  | r :: rest => RE.alt r (reAltL rest)

/-- Greedy option. -/
def reOptG (r : RE) : RE := RE.alt r RE.eps

/-- Greedy plus. -/
def rePlusG (r : RE) : RE := RE.seq r (RE.star false r)

/-- Greedy star. -/
def reStarG (r : RE) : RE := RE.star false r

/-- Lazy star (the form written dot star question mark). -/
def reStarL (r : RE) : RE := RE.star true r

/-- Exactly `n` copies. -/
def reRepN : Nat → RE → RE
  | 0, _ => RE.eps
  | n + 1, r => RE.seq r (reRepN n r)

/-- Up to `k` further copies, greedily preferring more. -/
def reOptChain : Nat → RE → RE
  | 0, _ => RE.eps
  | k + 1, r => RE.alt (RE.seq r (reOptChain k r)) RE.eps

/-- Counted repetition between `lo` and `hi`, greedy. -/
def reRepNM (lo hi : Nat) (r : RE) : RE :=
  RE.seq (reRepN lo r) (reOptChain (hi - lo) r)

/-- Counted repetition of at least `lo`, greedy. -/
def reRepMin (lo : Nat) (r : RE) : RE :=
  RE.seq (reRepN lo r) (RE.star false r)

/-- The ranges of the whitespace class `\s` (CPython str patterns). -/
def wsRanges : List (Char × Char) :=
  [('\t', '\r'), (' ', ' '), ('\x1c', '\x1f'), ('\x85', '\x85'), ('\xa0', '\xa0'),
   ('\u1680', '\u1680'), ('\u2000', '\u200a'), ('\u2028', '\u2029'),
   ('\u202f', '\u202f'), ('\u205f', '\u205f'), ('\u3000', '\u3000')]

/-- The digit class `\d` (ASCII model, as in all texts the program sees). -/
def clsD : RE := RE.cls false [('0', '9')]

/-- The whitespace class `\s`. -/
def clsS : RE := RE.cls false wsRanges

/-- The dot without DOTALL: anything but newline. -/
def dotNoNl : RE := RE.cls true [('\n', '\n')]

/-- The dot under DOTALL: anything. -/
def dotAll : RE := RE.cls true []

/-! ## strptime

Executable model of CPython `_strptime` for the directives the source
uses.  Each directive is compiled (as in `_strptime.TimeRE`) to an
ordered list of alternatives tried with backtracking inside one regex
match; the first full-priority match is then required to consume the
entire input, and the resulting fields are validated as `datetime` would
(a day must exist in its month, the year must be positive, seconds at
most 59). -/

inductive FTok where
  | D | M | Y4 | Y2 | H24 | H12 | minT | secT | amPm | monB | monFull
  | lit (c : Char)
  | ws
  deriving Repr

/-- Partial time state while parsing. -/
structure STime where
  y : Nat := 1900
  mo : Nat := 1
  d : Nat := 1
  h : Nat := 0
  mi : Nat := 0
  se : Nat := 0
  pm : Option Bool := none
  h12 : Bool := false
  deriving Repr

/-- Digits of `t` at position `i`, length `k`, as a number (none when a
non-digit intervenes or the input is too short). -/
def readDigits (t : List Char) (i k : Nat) : Option Nat :=
  let seg := subl t i (i + k)
  if seg.length = k && seg.all isDigitCh then some (digitsToNat seg) else none

/-- One- or two-digit numeric directive, alternatives in the order the
`_strptime` regex lists them: the valid two-digit forms, then one digit. -/
def numAlts (t : List Char) (i : Nat) (twoOk : Nat → Bool) (oneOk : Nat → Bool) :
    List (Nat × Nat) :=
  let two :=
    match readDigits t i 2 with
    | some v => if twoOk v then [(i + 2, v)] else []
    | none => []
  let one :=
    match readDigits t i 1 with
    | some v => if oneOk v then [(i + 1, v)] else []
    | none => []
  two ++ one

/-- Case-insensitive literal word test at a position. -/
def wordAt (t : List Char) (i : Nat) (w : List Char) : Bool :=
  (subl t i (i + w.length)).map lowerCh = w ∧ w.length ≤ t.length - i

/-- The abbreviated month names, as `_strptime` lists them. -/
def monAbbrs : List (List Char) :=
  [['j','a','n'], ['f','e','b'], ['m','a','r'], ['a','p','r'], ['m','a','y'],
   ['j','u','n'], ['j','u','l'], ['a','u','g'], ['s','e','p'], ['o','c','t'],
   ['n','o','v'], ['d','e','c']]

/-- The full month names with their month numbers, in the
longest-first order `_strptime` compiles them to. -/
def monFulls : List (List Char × Nat) :=
  [(['s','e','p','t','e','m','b','e','r'], 9),
   (['f','e','b','r','u','a','r','y'], 2),
   (['n','o','v','e','m','b','e','r'], 11),
   (['d','e','c','e','m','b','e','r'], 12),
   (['j','a','n','u','a','r','y'], 1),
   (['o','c','t','o','b','e','r'], 10),
   (['a','u','g','u','s','t'], 8),
   (['m','a','r','c','h'], 3),
   (['a','p','r','i','l'], 4),
   (['j','u','n','e'], 6),
   (['j','u','l','y'], 7),
   (['m','a','y'], 5)]

/-- Whitespace runs matched by a format-string blank: one or more
whitespace characters, greedy (longest first). -/
def wsAlts (t : List Char) (i : Nat) : List Nat :=
  let maxRun := ((t.drop i).takeWhile isPySpace).length
  (List.range maxRun).map (fun k => i + maxRun - k)

/-- All parses of one directive at a position, in backtracking priority
order, as (next position, updated state). -/
def ftokRun (t : List Char) (i : Nat) (st : STime) : FTok → List (Nat × STime)
  | FTok.D =>
    (numAlts t i (fun v => 10 ≤ v && v ≤ 31) (fun v => 1 ≤ v)).map
      (fun x => (x.1, { st with d := x.2 })) ++
    (match readDigits t i 2 with
     | some v => if v ≤ 9 && 1 ≤ v then [(i + 2, { st with d := v })] else []
     | none => [])
  | FTok.M =>
    (numAlts t i (fun v => (10 ≤ v && v ≤ 12)) (fun v => 1 ≤ v)).map
      (fun x => (x.1, { st with mo := x.2 })) ++
    (match readDigits t i 2 with
     | some v => if v ≤ 9 && 1 ≤ v then [(i + 2, { st with mo := v })] else []
     | none => [])
  | FTok.Y4 =>
    (match readDigits t i 4 with
     | some v => [(i + 4, { st with y := v })]
     | none => [])
  | FTok.Y2 =>
    (match readDigits t i 2 with
     | some v => [(i + 2, { st with y := if v ≤ 68 then 2000 + v else 1900 + v })]
     | none => [])
  | FTok.H24 =>
    (numAlts t i (fun v => v ≤ 23) (fun _ => true)).map
      (fun x => (x.1, { st with h := x.2, h12 := false }))
  | FTok.H12 =>
    (numAlts t i (fun v => (10 ≤ v && v ≤ 12)) (fun v => 1 ≤ v)).map
      (fun x => (x.1, { st with h := x.2, h12 := true })) ++
    (match readDigits t i 2 with
     | some v => if v ≤ 9 && 1 ≤ v then [(i + 2, { st with h := v, h12 := true })] else []
     | none => [])
  | FTok.minT =>
    (numAlts t i (fun v => v ≤ 59) (fun _ => true)).map
      (fun x => (x.1, { st with mi := x.2 }))
  | FTok.secT =>
    (numAlts t i (fun v => v ≤ 61) (fun _ => true)).map
      (fun x => (x.1, { st with se := x.2 }))
  | FTok.amPm =>
    (if wordAt t i ['a', 'm'] then [(i + 2, { st with pm := some false })] else []) ++
    (if wordAt t i ['p', 'm'] then [(i + 2, { st with pm := some true })] else [])
  | FTok.monB =>
    (List.range 12).filterMap (fun k =>
      match monAbbrs.get? k with
      | some w => if wordAt t i w then some (i + 3, { st with mo := k + 1 }) else none
      | none => none)
  | FTok.monFull =>
    monFulls.filterMap (fun p =>
      if wordAt t i p.1 then some (i + p.1.length, { st with mo := p.2 }) else none)
  | FTok.lit c =>
    (match t.get? i with
     | some d => if lowerCh d = lowerCh c then [(i + 1, st)] else []
     | none => [])
  | FTok.ws =>
    (wsAlts t i).map (fun j => (j, st))

/-- All parses of a directive list from a position. -/
def fmtRun (t : List Char) : List FTok → Nat → STime → List (Nat × STime)
  | [], i, st => [(i, st)]
  | tok :: rest, i, st =>
    (ftokRun t i st tok).flatMap (fun x => fmtRun t rest x.1 x.2)

/-- Days in a month of the proleptic Gregorian calendar. -/
def daysInMonth (y mo : Nat) : Nat :=
  if mo = 2 then
    if y % 4 = 0 && (y % 100 ≠ 0 || y % 400 = 0) then 29 else 28
  else if mo = 4 || mo = 6 || mo = 9 || mo = 11 then 30
  else 31

/-- The final hour, applying the meridiem only to a 12-hour parse. -/
def finalHour (st : STime) : Nat :=
  if st.h12 then
    match st.pm with
    | some true => if st.h = 12 then 12 else st.h + 12
    | some false => if st.h = 12 then 0 else st.h
    | none => st.h
  else st.h

/-- `datetime.strptime` on a directive list: the priority-first regex
match must consume the whole input and yield a constructible datetime;
returns (year, month, day). -/
def strptime (s : String) (fmt : List FTok) : Option (Nat × Nat × Nat) :=
  let t := s.toList
  match fmtRun t fmt 0 {} with
  | [] => none
  | x :: _ =>
    if x.1 = t.length then
      let st := x.2
      if 1 ≤ st.y && 1 ≤ st.d && st.d ≤ daysInMonth st.y st.mo &&
          finalHour st ≤ 23 && st.se ≤ 59 then
        some (st.y, st.mo, st.d)
      else none
    else none

/-- Zero-pad a year to four digits. -/
def pad4 (n : Nat) : String :=
  if n < 10 then "000" ++ toString n
  else if n < 100 then "00" ++ toString n
  else if n < 1000 then "0" ++ toString n
  else toString n

/-- `strftime` with the day/month/year output format of the source. -/
def formatDate (y mo d : Nat) : String :=
  pad2 d ++ "/" ++ pad2 mo ++ "/" ++ pad4 y

/-! ## The pattern lists of parse_pdf_content -/

/-- The class of dot, colon and whitespace. -/
def clsDotColonS : RE := RE.cls false (('.', '.') :: (':', ':') :: wsRanges)

/-- The class of dot and colon. -/
def clsDotColon : RE := RE.cls false [('.', '.'), (':', ':')]

/-- The class of colon and whitespace. -/
def clsColonS : RE := RE.cls false ((':', ':') :: wsRanges)

/-- The class of dot and whitespace. -/
def clsDotS : RE := RE.cls false (('.', '.') :: wsRanges)

/-- The class of dash and slash. -/
def clsDashSlash : RE := RE.cls false [('-', '-'), ('/', '/')]

/-- Letters. -/
def clsAlpha : RE := RE.cls false [('A', 'Z'), ('a', 'z')]

/-- Lowercase letters (IGNORECASE widens this at match time). -/
def clsLower : RE := RE.cls false [('a', 'z')]

/-- Uppercase letters (IGNORECASE widens this at match time). -/
def clsUpper : RE := RE.cls false [('A', 'Z')]

/-- Digits and comma. -/
def clsDComma : RE := RE.cls false [('0', '9'), (',', ',')]

/-- The three currency signs appearing in the amount patterns. -/
def clsCur3 : RE := RE.cls false [('£', '£'), ('$', '$'), ('€', '€')]

/-- Word characters. -/
def clsW : RE := RE.cls false [('a', 'z'), ('A', 'Z'), ('0', '9'), ('_', '_')]

/-- Anything except a digit. -/
def clsNotDigit : RE := RE.cls true [('0', '9')]

/-- Anything except a digit or newline. -/
def clsNotDigitNl : RE := RE.cls true [('0', '9'), ('\n', '\n')]

/-- Uppercase letters and digits. -/
def clsUpperDigit : RE := RE.cls false [('A', 'Z'), ('0', '9')]

/-- The CBM-specific invoice patterns (source lines 153-160), in order. -/
def cbm_specific_patterns : List RE :=
  [reSeqL [reStr "Invoice", rePlusG clsS, reStr "CBM", rePlusG clsS, RE.cap (reRepN 8 clsD)],
   reSeqL [reStr "Invoice", reStarG clsS, reStr "CBM", reStarG clsS, RE.cap (reRepN 8 clsD)],
   reSeqL [reStr "Invoice", rePlusG clsS, reStr "CBM", rePlusG clsS, RE.cap (reRepN 7 clsD)],
   reSeqL [reStr "Invoice", reStarG clsS, reStr "CBM", reStarG clsS, RE.cap (reRepN 7 clsD)],
   reSeqL [reStr "Invoice", rePlusG clsS, reStr "CBM", rePlusG clsS, RE.cap (rePlusG clsD)],
   reSeqL [reStr "Invoice", reStarG clsS, reStr "CBM", reStarG clsS, RE.cap (rePlusG clsD)]]

/-- The CBM fallback reference patterns (source lines 172-179), in order. -/
def fallback_patterns : List RE :=
  [reSeqL [reStr "Our", reStarG clsS, reStr "Reference", reStarG clsDotColonS,
     RE.cap (reRepN 5 clsD), reOptG (RE.lit '/')],
   reSeqL [reStr "Our", reStarG clsS, reStr "Reference", reStarG clsDotColonS,
     RE.cap (reRepN 5 clsD), reStarG clsS, RE.lit '/'],
   reSeqL [reStr "Reference", reStarG clsDotColonS, RE.cap (reRepN 5 clsD),
     reOptG (RE.lit '/')],
   reSeqL [reStr "Our", reStarG clsS, reStr "Reference", reStarG clsDotColonS,
     RE.cap (reRepNM 7 8 clsD), reOptG (RE.lit '/')],
   reSeqL [reStr "Reference", reStarG clsDotColonS, RE.cap (reRepNM 7 8 clsD),
     reOptG (RE.lit '/')],
   reSeqL [reStr "Order", reStarG clsS, reStr "No", reStarG clsDotColonS,
     RE.cap (reRepNM 5 8 clsD)]]

/-- The FD invoice patterns (source lines 191-198), in order. -/
def fd_patterns : List RE :=
  [reSeqL [reStr "Invoice", reStarG clsS, reStr "FD", reStarG clsS, RE.cap (rePlusG clsD)],
   reSeqL [reStr "Invoice", reStarG clsS, reAltL [reStr "No", reStr "Number", reStr "#"],
     clsDotColon, reStarG clsS, reStr "FD", reStarG clsS, RE.cap (rePlusG clsD)],
   reSeqL [reStr "Invoice", reStarG clsS, reAltL [reStr "No", reStr "Number", reStr "#"],
     clsDotColon, reStarG clsS, RE.cap (rePlusG clsD)],
   reSeqL [reStr "Invoice", clsDotColon, reStarG clsS, RE.cap (rePlusG clsD)],
   reSeqL [reStr "Reference", clsDotColon, reStarG clsS, RE.cap (rePlusG clsD)],
   reSeqL [reStr "Our", reStarG clsS, reStr "Reference", reStarG clsDotColonS,
     RE.cap (rePlusG clsD), reOptG (RE.lit '/')]]

/-- The first pattern in the list that matches (re.search succeeds)
yields its group; later patterns are not consulted (the loop in the
source breaks on the first match). -/
def chainCapture (t : List Char) : List RE → Option (List Char)
  | [] => none
  | p :: rest =>
    match reSearch true p t with
    | some m => some (group1 t m)
    | none => chainCapture t rest

/-- The CBM fallback loop (source lines 180-188): a matching pattern
whose captured number fails the length/exclusion filter does not stop
the loop. -/
def cbmFallbackLoop (t : List Char) : List RE → Option (List Char)
  | [] => none
  | p :: rest =>
    match reSearch true p t with
    | some m =>
      let ref := group1 t m
      if 5 ≤ ref.length ∧
          ¬(String.mk ref = "21466292" ∨ String.mk ref = "77886661") then some ref
      else cbmFallbackLoop t rest
    | none => cbmFallbackLoop t rest

/-- Strip ordinal indicators: a global case-sensitive substitution of
the alternation st, nd, rd, th by nothing (source line 240). -/
def ordStripL (l : List Char) : List Char :=
  reSub false (reAltL [reStr "st", reStr "nd", reStr "rd", reStr "th"]) [] l

/-- The candidate strptime formats named in the source. -/
def fmtDMY4 : List FTok := [FTok.D, FTok.lit '/', FTok.M, FTok.lit '/', FTok.Y4]

def fmtDMY4dash : List FTok := [FTok.D, FTok.lit '-', FTok.M, FTok.lit '-', FTok.Y4]

def fmtDMY2 : List FTok := [FTok.D, FTok.lit '/', FTok.M, FTok.lit '/', FTok.Y2]

def fmtDMY2dash : List FTok := [FTok.D, FTok.lit '-', FTok.M, FTok.lit '-', FTok.Y2]

def fmtDbYHMS : List FTok :=
  [FTok.D, FTok.lit '-', FTok.monB, FTok.lit '-', FTok.Y4, FTok.ws,
   FTok.H24, FTok.lit ':', FTok.minT, FTok.lit ':', FTok.secT]

def fmtDbYIMSp : List FTok :=
  [FTok.D, FTok.lit '-', FTok.monB, FTok.lit '-', FTok.Y4, FTok.ws,
   FTok.H12, FTok.lit ':', FTok.minT, FTok.lit ':', FTok.secT, FTok.amPm]

def fmtDbY : List FTok := [FTok.D, FTok.lit '-', FTok.monB, FTok.lit '-', FTok.Y4]

def fmtDbYHdMdS : List FTok :=
  [FTok.D, FTok.lit '-', FTok.monB, FTok.lit '-', FTok.Y4, FTok.ws,
   FTok.H24, FTok.lit '.', FTok.minT, FTok.lit '.', FTok.secT]

def fmtDbYIdMdSp : List FTok :=
  [FTok.D, FTok.lit '-', FTok.monB, FTok.lit '-', FTok.Y4, FTok.ws,
   FTok.H12, FTok.lit '.', FTok.minT, FTok.lit '.', FTok.secT, FTok.amPm]

def fmtDbYHdMSp : List FTok :=
  [FTok.D, FTok.lit '-', FTok.monB, FTok.lit '-', FTok.Y4, FTok.ws,
   FTok.H24, FTok.lit '.', FTok.minT, FTok.secT, FTok.amPm]

def fmtDbYHwMwS : List FTok :=
  [FTok.D, FTok.lit '-', FTok.monB, FTok.lit '-', FTok.Y4, FTok.ws,
   FTok.H24, FTok.ws, FTok.minT, FTok.ws, FTok.secT]

def fmtDbYHwMwSp : List FTok :=
  [FTok.D, FTok.lit '-', FTok.monB, FTok.lit '-', FTok.Y4, FTok.ws,
   FTok.H24, FTok.ws, FTok.minT, FTok.ws, FTok.secT, FTok.amPm]

def fmtDBfY : List FTok := [FTok.D, FTok.ws, FTok.monFull, FTok.ws, FTok.Y4]

def fmtDbwY : List FTok := [FTok.D, FTok.ws, FTok.monB, FTok.ws, FTok.Y4]

def fmtY4MD : List FTok := [FTok.Y4, FTok.lit '-', FTok.M, FTok.lit '-', FTok.D]

def fmtY4MDslash : List FTok := [FTok.Y4, FTok.lit '/', FTok.M, FTok.lit '/', FTok.D]

/-- The capture of a day-month-name-year with colon time. -/
def reDMonYTimeColon (monRep : RE) : RE :=
  reSeqL [reRepNM 1 2 clsD, RE.lit '-', monRep, RE.lit '-', reRepN 4 clsD,
    rePlusG clsS, reRepN 2 clsD, RE.lit ':', reRepN 2 clsD, RE.lit ':', reRepN 2 clsD]

/-- Month-name run as letters one or more. -/
def monAlphaPlus : RE := rePlusG clsAlpha

/-- Month-name run as exactly three letters. -/
def monAlpha3 : RE := reRepN 3 clsAlpha

/-- The ordered (pattern, candidate formats) list of the date extractor
(source lines 210-233).  Entry thirteen has one escaped dot and one bare
dot between its time digits, as in the source. -/
def date_patterns : List (RE × List (List FTok)) :=
  [(reSeqL [reStr "Date", clsDotColon, reStarG clsS,
      RE.cap (reSeqL [reRepNM 1 2 clsD, clsDashSlash, reRepNM 1 2 clsD, clsDashSlash,
        reRepNM 2 4 clsD])],
    [fmtDMY4, fmtDMY4dash, fmtDMY2, fmtDMY2dash]),
   (reSeqL [reStr "Date", clsDotColon, reStarG clsS,
      RE.cap (reSeqL [reRepNM 1 2 clsD, RE.lit '-', monAlphaPlus, RE.lit '-', reRepN 4 clsD,
        rePlusG clsS, reRepN 2 clsD, RE.lit ':', reRepN 2 clsD, RE.lit ':', reRepN 2 clsD,
        reOptG (reAltL [reStr "AM", reStr "PM"])])],
    [fmtDbYHMS, fmtDbYIMSp]),
   (reSeqL [reStr "Date", clsDotColon, reStarG clsS,
      RE.cap (reSeqL [reRepNM 1 2 clsD, RE.lit '-', monAlphaPlus, RE.lit '-',
        reRepN 4 clsD])],
    [fmtDbY]),
   (reSeqL [reStr "Date", reStarG clsDotColonS, RE.cap (reDMonYTimeColon monAlphaPlus)],
    [fmtDbYHMS]),
   (reSeqL [reStr "Date", reStarG clsDotColonS,
      RE.cap (reSeqL [reRepNM 1 2 clsD, RE.lit '-', monAlphaPlus, RE.lit '-', reRepN 4 clsD,
        rePlusG clsS, reRepN 2 clsD, RE.lit '.', reRepN 2 clsD, dotNoNl, reRepN 2 clsD,
        reOptG (reAltL [reStr "AM", reStr "PM"])])],
    [fmtDbYHdMdS, fmtDbYIdMdSp]),
   (reSeqL [reStr "Date", rePlusG clsDotColonS, RE.cap (reDMonYTimeColon monAlphaPlus)],
    [fmtDbYHMS]),
   (reSeqL [reStr "MT", rePlusG clsS, rePlusG clsD, rePlusG clsS,
      RE.cap (reDMonYTimeColon monAlphaPlus)],
    [fmtDbYHMS]),
   (reSeqL [reAltL [reStr "Sales Rep", reStr "Our Reference", reStr "Order No",
      reStr "Delivery By"], reStarL dotNoNl, RE.cap (reDMonYTimeColon monAlphaPlus)],
    [fmtDbYHMS]),
   (reSeqL [reStr "Date:", reStarG clsS, reStr "Sales Rep:", reStarL dotNoNl,
      RE.cap (reDMonYTimeColon monAlpha3)],
    [fmtDbYHMS]),
   (reSeqL [reStr "Date:", reStarG clsS, RE.cap (reDMonYTimeColon monAlpha3)],
    [fmtDbYHMS]),
   (RE.cap (reDMonYTimeColon monAlpha3),
    [fmtDbYHMS]),
   (reSeqL [reStr "MT", rePlusG clsS, rePlusG clsD, rePlusG clsS,
      RE.cap (reDMonYTimeColon monAlpha3)],
    [fmtDbYHMS]),
   (RE.cap (reSeqL [reRepNM 1 2 clsD, RE.lit '-', monAlpha3, RE.lit '-', reRepN 4 clsD,
      rePlusG clsS, reRepN 2 clsD, RE.lit '.', reRepN 2 clsD, reRepN 2 clsD,
      reAltL [reStr "AM", reStr "PM"]]),
    [fmtDbYHdMSp]),
   (RE.cap (reSeqL [reRepNM 1 2 clsD, RE.lit '-', monAlpha3, RE.lit '-', reRepN 4 clsD,
      rePlusG clsS, reRepN 2 clsD, rePlusG clsS, reRepN 2 clsD, rePlusG clsS,
      reRepN 2 clsD, reOptG (reAltL [reStr "AM", reStr "PM"])]),
    [fmtDbYHwMwS, fmtDbYHwMwSp]),
   (reSeqL [reStr "Date Due:", reStarG clsS,
      RE.cap (reSeqL [reRepNM 1 2 clsD, RE.lit '/', reRepNM 1 2 clsD, RE.lit '/',
        reRepN 4 clsD])],
    [fmtDMY4]),
   (RE.cap (reSeqL [reRepNM 1 2 clsD,
      reOptG (reAltL [reStr "st", reStr "nd", reStr "rd", reStr "th"]), rePlusG clsS,
      reAltL [reStr "Jan", reStr "Feb", reStr "Mar", reStr "Apr", reStr "May",
        reStr "Jun", reStr "Jul", reStr "Aug", reStr "Sep", reStr "Oct", reStr "Nov",
        reStr "Dec"],
      reStarG clsLower, reOptG (RE.lit '.'), rePlusG clsS, reRepNM 2 4 clsD]),
    [fmtDBfY, fmtDbwY]),
   (RE.cap (reSeqL [reRepN 4 clsD, clsDashSlash, reRepNM 1 2 clsD, clsDashSlash,
      reRepNM 1 2 clsD]),
    [fmtY4MD, fmtY4MDslash])]

/-- Try the candidate formats of one pattern in order. -/
def tryFormats (ds : String) : List (List FTok) → Option String
  | [] => none
  | f :: rest =>
    match strptime ds f with
    | some x => some (formatDate x.1 x.2.1 x.2.2)
    | none => tryFormats ds rest

/-- The date-extraction loop (source lines 235-250): the first pattern
that both matches and has a format that parses its ordinal-stripped
group wins; a matching pattern none of whose formats parse does not stop
the loop. -/
def dateLoop (t : List Char) : List (RE × List (List FTok)) → Option String
  | [] => none
  | pf :: rest =>
    match reSearch true pf.1 t with
    | some m =>
      match tryFormats (String.mk (ordStripL (group1 t m))) pf.2 with
      | some out => some out
      | none => dateLoop t rest
    | none => dateLoop t rest

/-- The commonly repeated amount capture: optional opening parenthesis,
digits and commas, optional dot, digits, optional closing parenthesis. -/
def capMoney : RE :=
  RE.cap (reSeqL [reOptG (RE.lit '('), rePlusG clsDComma, reOptG (RE.lit '.'),
    reStarG clsD, reOptG (RE.lit ')')])

/-- Digits dot digits. -/
def decNum : RE := reSeqL [rePlusG clsD, RE.lit '.', rePlusG clsD]

/-- Digits not followed by a dot and digit (whole-number capture with a
negative lookahead). -/
def wholeNum : RE :=
  reSeqL [RE.cap (rePlusG clsD), RE.look true (reSeqL [RE.lit '.', clsD])]

/-- Digits, optional dot, optional digits. -/
def looseNum : RE := reSeqL [rePlusG clsD, reOptG (RE.lit '.'), reStarG clsD]

/-- The Net amount patterns (source lines 258-280), in order. -/
def net_patterns : List RE :=
  [reSeqL [reStr "Net", reStarG clsS, reStr "Amount", reStarG clsS,
     reOptG (reSeqL [reStr "in", reStarG clsS, reStr "EUR", reStarG clsS]),
     RE.cap decNum],
   reSeqL [reAltL [reStr "Net", reStr "Subtotal", reStr "Sub-total"], reStarG clsColonS,
     reOptG clsCur3, reStarG clsS, capMoney],
   reSeqL [reStr "Amount", reStarG clsColonS, reOptG clsCur3, reStarG clsS, capMoney],
   reSeqL [reStr "NetAmount", reStarG clsS, RE.cap decNum],
   reSeqL [reStr "Net", reStarG clsS, reStr "Amount", reStarG clsS,
     reOptG (reSeqL [reStr "VAT", reStarG clsS, reStr "Amt"]), reStarG clsColonS,
     RE.cap decNum],
   reSeqL [reStr "Net", reStarG clsS, reStr "Amount", rePlusG clsS, RE.cap decNum],
   reSeqL [reStr "NetAmount", rePlusG clsS, RE.cap decNum],
   reSeqL [reStr "NetAmount", rePlusG clsS, wholeNum],
   reSeqL [reStr "Net", reStarG clsS, reStr "Amount", rePlusG clsS, wholeNum],
   reSeqL [reStr "NetAmount", rePlusG clsS,
     reOptG (reSeqL [reStr "E", reStarG clsS, RE.lit '-', reStarG clsS, reStr "0%",
       reStarG clsS]),
     wholeNum],
   reSeqL [reStr "Net", reStarG clsS, reStr "Amount", rePlusG clsS,
     reOptG (reSeqL [reStr "E", reStarG clsS, RE.lit '-', reStarG clsS, reStr "0%",
       reStarG clsS]),
     RE.cap decNum],
   reSeqL [reStr "Net", reStarG clsS, reStr "Amount", reStarG clsS, reStr "Retail",
     reStarG clsS, reStr "TC", reStarL dotNoNl, RE.cap looseNum],
   reSeqL [reStr "Type", reStarG clsDotS, reStr "Supply", reStarG clsS, reStr "by",
     reStarG clsS, reStr "Sale", reStarL clsNotDigit, RE.cap looseNum],
   reSeqL [reStr "Supply", reStarG clsS, reStr "by", reStarG clsS, reStr "Sale",
     reStarG clsS, reStr "Net", reStarG clsS, reStr "Amount", reStarL dotNoNl,
     RE.cap looseNum],
   reSeqL [reStr "Net", reStarG clsS, reStr "Amount", reStarL dotNoNl,
     RE.cap (reSeqL [reRepNM 2 4 clsD, reOptG (RE.lit '.'), reStarG clsD])],
   reSeqL [reStr "E", reStarG clsS, RE.lit '-', reStarG clsS, reStr "0%", reStarG clsS,
     wholeNum],
   reSeqL [reStr "0%", reStarG clsS, wholeNum]]

/-- The VAT amount patterns (source lines 281-291), in order. -/
def vat_patterns : List RE :=
  [reSeqL [reStr "VAT", reStarG clsS, reStr "Amt", reStarG clsS, RE.cap decNum],
   reSeqL [reStr "VAT", reStarG clsS, reStr "Amount", reStarG clsS, RE.cap decNum],
   reSeqL [reAltL [reStr "VAT", reStr "Tax"], reStarG clsColonS, reOptG clsCur3,
     reStarG clsS, capMoney],
   reSeqL [reStr "V.A.T.", reStarG clsColonS, reOptG clsCur3, reStarG clsS, capMoney],
   reSeqL [reStr "VATAmount", reStarG clsS, RE.cap decNum],
   reSeqL [reStr "VAT", reStarG clsS, reStr "Amount", rePlusG clsS, RE.cap decNum],
   reSeqL [reStr "VATAmount", rePlusG clsS, RE.cap decNum],
   reSeqL [reStr "VAT", reStarG clsS, reStr "Amt", rePlusG clsS, RE.cap decNum],
   reSeqL [reStr "VAT", reStarG clsS, reStr "Amt", rePlusG clsS, RE.cap decNum]]

/-- The Total amount patterns (source lines 292-313), in order. -/
def total_patterns : List RE :=
  [reSeqL [reStr "Total", reStarG clsS, reStr "Amount", reStarG clsS, reStr "in",
     reStarG clsS, reStr "EUR", reStarG clsS, RE.cap decNum],
   reSeqL [reAltL [reStr "Total", reStr "Amount Due", reStr "Balance Due"],
     reStarG clsColonS, reOptG clsCur3, reStarG clsS, capMoney],
   reSeqL [reStr "Total", rePlusG clsS, reStr "Amount", reStarG clsColonS,
     reOptG clsCur3, reStarG clsS, capMoney],
   reSeqL [reStr "Total", reStarG clsS, reStr "Amount", reStarG clsS,
     reOptG (reSeqL [reStr "in", reStarG clsS, reStr "EUR", reStarG clsS]),
     RE.cap decNum],
   reSeqL [reStr "Total", reStarG clsS, reStr "Amount", rePlusG clsS, reStr "in",
     rePlusG clsS, reStr "EUR", rePlusG clsS, RE.cap decNum],
   reSeqL [reStr "TotalAmount", reStarG clsS, RE.cap decNum],
   reSeqL [reStr "Total", rePlusG clsS, reStr "Amount", rePlusG clsS, reStr "in",
     rePlusG clsS, reStr "EUR", rePlusG clsS, RE.cap decNum],
   reSeqL [reStr "Total", reStarG clsS, reStr "Amount", reStarG clsS, reStr "in",
     reStarG clsS, reStr "EUR", reStarG clsS, wholeNum],
   reSeqL [reStr "Total", reStarG clsS, reStr "Amount", reStarG clsS, reStr "in",
     reStarG clsS, reStr "EUR", reStarL dotNoNl, reStr "by", RE.cap decNum],
   reSeqL [reStr "Total", reStarG clsS,
     reOptG (reSeqL [reStr "Amount", reStarG clsS]), reStarG clsColonS,
     RE.cap looseNum],
   reSeqL [reStr "Grand", reStarG clsS, reStr "Total", reStarG clsColonS,
     RE.cap looseNum],
   reSeqL [reStr "Balance", reStarG clsColonS, RE.cap looseNum],
   reSeqL [reStr "VAT", reStarG clsS, reStr "Amount", reStarL clsNotDigit,
     RE.cap looseNum],
   reSeqL [reStr "Total", reStarG clsS, reStr "Amount", reStarG clsS, reStr "in",
     reStarG clsS, reStr "EUR", reStarL dotNoNl, RE.cap decNum],
   reSeqL [reStr "Total", reStarG clsS, reStr "Amount", reStarG clsS, reStr "in",
     reStarG clsS, reStr "EUR", rePlusG clsS, RE.cap decNum],
   reSeqL [reStr "EUR", rePlusG clsS, RE.cap decNum]]

/-- The country patterns (source lines 339-342), in order; the first has
no capturing group and the match itself is used. -/
def country_patterns : List RE :=
  [reAltL [reStr "QORMI", reStr "ZABBAR", reStr "MALTA"],
   reSeqL [RE.wordB,
     reAltL [reStr "UK", reStr "USA",
       reSeqL [reStr "UNITED", rePlusG clsS, reStr "KINGDOM"],
       reSeqL [reStr "UNITED", rePlusG clsS, reStr "STATES"],
       reStr "CANADA", reStr "AUSTRALIA", reStr "MALTA"],
     RE.wordB]]

/-! ### Description patterns -/

/-- The boundary lookahead of the description-section pattern. -/
def descSectionEnd : RE :=
  reAltL [reSeqL [reStr "Dual", reStarG clsS, reStr "Qty"],
    reSeqL [reStr "Unit", reStarG clsS, reStr "Price"],
    reSeqL [reStr "Qty", reStarG clsS, reStr "Unit", reStarG clsS, reStr "Price"]]

/-- The description-section pattern of the Attard branch (source line
354), compiled with IGNORECASE and DOTALL. -/
def descSectionPat : RE :=
  reSeqL [reStr "Description", reStarG clsS, RE.cap (reStarL dotAll),
    RE.look false descSectionEnd]

/-- The product-line pattern handed to findall (source line 360). -/
def productLinePat : RE :=
  reSeqL [RE.cap (reAltL
      [reSeqL [reStr "Mortadella", rePlusG clsNotDigitNl],
       reSeqL [clsUpper, rePlusG clsLower, reStarL clsNotDigitNl]]),
    RE.look false (reAltL
      [reSeqL [reStarG clsS, rePlusG clsD],
       reSeqL [RE.lit '\n', rePlusG clsD],
       reSeqL [reStarG clsS, reStr "Q", reStarG clsS, reStr "x"],
       RE.eol])]

/-- Everything to end of line or string (dot star with the end anchor). -/
def toEnd : RE := reSeqL [reStarG dotNoNl, RE.eol]

/-- The per-line cleanup substitutions of the Attard branch (source
lines 367-372), in order, each paired with its IGNORECASE flag. -/
def attardLineSubs : List (Bool × RE) :=
  [(false, reSeqL [rePlusG clsS, rePlusG clsD, reStarG clsS, RE.lit 'x', reStarG clsS,
     rePlusG clsD, toEnd]),
   (true, reSeqL [rePlusG clsS, reStr "SANT", rePlusG clsS, reStr "DALMAI", toEnd]),
   (true, reSeqL [rePlusG clsS, reStr "Dual", rePlusG clsS, reStr "Qty", toEnd]),
   (true, reSeqL [rePlusG clsS, rePlusG clsD, reStarG clsS,
     reAltL [reSeqL [reStr "Kg", reOptG (RE.lit 's')], reStr "kg"], toEnd]),
   (false, reSeqL [rePlusG clsS, reRepMin 3 clsD, toEnd]),
   (false, reSeqL [reStarG clsS, RE.lit '\n', reStarG dotNoNl, RE.eol])]

/-- The quantity/unit tail of the general description patterns. -/
def qtyUnitTail : RE :=
  reSeqL [rePlusG clsD, reStarG clsS, reAltL [reStr "KG", reStr "PCS", reStr "EA"]]

/-- The boundary lookahead of the first two general description
patterns. -/
def descGenEnd1 : RE :=
  reSeqL [reStarG clsS, reAltL
    [reSeqL [reStr "Unit", reStarG clsS, reStr "Price"],
     reStr "Disc%",
     reSeqL [reStr "Net", reStarG clsS, reStr "Amount"],
     reStr "Retail", reStr "TC", qtyUnitTail]]

/-- The boundary lookahead of the later general description patterns. -/
def descGenEnd2 : RE :=
  reAltL [reStr "\n\n",
    reSeqL [RE.lit '\n', reAltL [reStr "Amount", reStr "Total", reStr "Net",
      reStr "VAT"]]]

/-- The general description patterns (source lines 383-389), in order;
the first four are compiled with DOTALL (the dot crosses newlines), and
the last has a fixed lookbehind of two newlines. -/
def description_patterns : List RE :=
  [reSeqL [reStr "Code", rePlusG clsS, reStr "Description", reStarG clsS, rePlusG clsW,
     rePlusG clsS, RE.cap (reStarL dotAll), RE.look false descGenEnd1],
   reSeqL [reStr "Description", reStarG clsS, RE.cap (reStarL dotAll),
     RE.look false descGenEnd1],
   reSeqL [reAltL [reStr "Description", reStr "Items", reStr "Services"], clsDotColon,
     reStarG clsS, RE.cap (reStarL dotAll), RE.look false descGenEnd2],
   reSeqL [reAltL [reStr "Details",
       reSeqL [reStr "Work", rePlusG clsS, reStr "Description"]], clsDotColon,
     reStarG clsS, RE.cap (reStarL dotAll), RE.look false descGenEnd2],
   reSeqL [RE.lookb ['\n', '\n'], RE.cap (reStarL dotAll), RE.look false descGenEnd2]]

/-- The cleanup substitutions applied to a general description match
(source lines 395-405), in order, each with its IGNORECASE flag. -/
def descGenSubs : List (Bool × RE × List Char) :=
  [(false, rePlusG clsS, [' ']),
   (false, reSeqL [RE.bol, RE.cls false [('-', '-'), ('*', '*'), ('•', '•')],
     reStarG clsS], []),
   (false, reSeqL [RE.bol, rePlusG clsUpperDigit, rePlusG clsS], []),
   (true, reSeqL [rePlusG clsS, rePlusG clsD,
     reOptG (reSeqL [RE.lit '.', rePlusG clsD]), reStarG clsS,
     reAltL [reStr "KG", reStr "PCS", reStr "EA"], toEnd], []),
   (true, reSeqL [rePlusG clsS, rePlusG clsD, RE.lit 'x', rePlusG clsD, rePlusG clsS,
     reStr "SANT", rePlusG clsS, reStr "DALMAI", toEnd], []),
   (true, reSeqL [rePlusG clsS, reStr "Dual", rePlusG clsS, reStr "Qty", rePlusG clsS,
     reStr "Qty", toEnd], []),
   (true, reSeqL [rePlusG clsS, rePlusG clsD, reStarG clsS, RE.lit 'x', reStarG clsS,
     rePlusG clsD, toEnd], []),
   (true, reSeqL [rePlusG clsS, reStr "Q", reStarG clsS, RE.lit 'x', reStarG clsS,
     rePlusG clsD, toEnd], [])]

/-- The final line-item fallback pattern (source line 411). -/
def lineItemPat : RE :=
  reSeqL [rePlusG clsUpperDigit, rePlusG clsS, RE.cap (reStarL dotNoNl),
    RE.look false (reSeqL [rePlusG clsS, rePlusG clsD,
      reOptG (reSeqL [RE.lit '.', rePlusG clsD]), reStarG clsS,
      reAltL [reStr "KG", reStr "PCS", reStr "EA"]])]

/-! ## Records, configuration, and the content parser -/

/-- The output record (the fixed-key dict built by
`parse_pdf_content`). -/
structure Record where
  type : String
  supplier : String
  customer : String
  nominalAC : String
  date : String
  invoiceNumber : String
  description : String
  net : String
  taxCode : String
  vat : String
  total : String
  customerCountry : String
  deriving DecidableEq, Repr

/-- The configuration data (the parsed content of the configuration
file); absent keys are `none`, so that the source get-with-default calls
are modelled exactly. -/
structure Config where
  date_overrides : List (String × String)
  suppliers : List (String × String)
  customer : Option String
  nominal_ac : Option String
  default_type : Option String
  deriving Repr

/-- Dictionary lookup. -/
def lookupKV (l : List (String × String)) (k : String) : Option String :=
  (l.find? (fun p => p.1 = k)).map (fun p => p.2)

/-- The built-in defaults returned when the configuration file is absent
(source lines 16-22).  The defaults carry no `suppliers` mapping. -/
def defaultConfig : Config :=
  { date_overrides := [], suppliers := [],
    customer := some "IG International Ltd",
    nominal_ac := some "5000",
    default_type := some "PI" }

/-- The state of the configuration file on disk. -/
inductive ConfigSrc where
  | missing
  | invalid
  | valid (c : Config)

/-- `load_config` (source lines 9-25): a missing file falls back to the
defaults with a warning; an unparseable file re-raises the decode
error. -/
def load_config : ConfigSrc → Except String Config
  | ConfigSrc.missing => Except.ok defaultConfig
  | ConfigSrc.invalid => Except.error "Error parsing config.json"
  | ConfigSrc.valid c => Except.ok c

/-- Whether a character list begins with the two letters FD. -/
def beginsFD : List Char → Bool
  | 'F' :: 'D' :: _ => true
  | _ => false

/-- The invoice-number extraction step (source lines 150-206). -/
def extractInvoiceStep (t : List Char) (companyDir : String) (data : Record) : Record :=
  if companyDir = "CamelBrand" then
    match chainCapture t cbm_specific_patterns with
    | some num => { data with invoiceNumber := "CBM" ++ String.mk num }
    | none =>
      match cbmFallbackLoop t fallback_patterns with
      | some ref => { data with invoiceNumber := "CBM" ++ String.mk ref }
      | none => data
  else
    match chainCapture t fd_patterns with
    | some num =>
      { data with invoiceNumber :=
          if !(beginsFD num) then "FD" ++ String.mk num else String.mk num }
    | none => data

/-- The date extraction step (source lines 209-250). -/
def extractDateStep (t : List Char) (data : Record) : Record :=
  match dateLoop t date_patterns with
  | some d => { data with date := d }
  | none => data

/-- The date-override step (source lines 252-254). -/
def dateOverrideStep (cfg : Config) (data : Record) : Record :=
  match lookupKV cfg.date_overrides data.invoiceNumber with
  | some d => { data with date := d }
  | none => data

/-- The amount extraction step (source lines 256-326): fields in the
dict order Net, VAT, Total; the first matching pattern of each field is
normalized (and breaks the field loop even when normalization yields the
empty string), and a VAT match also sets the tax code. -/
def amountsStep (t : List Char) (data : Record) : Record :=
  let d1 :=
    match chainCapture t net_patterns with
    | some g => { data with net := parse_amount (String.mk g) }
    | none => data
  let d2 :=
    match chainCapture t vat_patterns with
    | some g =>
      let amt := parse_amount (String.mk g)
      { d1 with vat := amt, taxCode := if amt = "0.00" then "T0" else "T1" }
    | none => d1
  match chainCapture t total_patterns with
  | some g => { d2 with total := parse_amount (String.mk g) }
  | none => d2

/-- Whether a Python float value equals zero. -/
def pyEqZero : PyNum → Bool
  | PyNum.fin d => d.n == 0
  | _ => false

/-- The Total-from-Net fallback (source lines 328-333): when Total is
empty and Net is present, the VAT string is converted (an unparseable
non-empty VAT would raise, propagating out of the parser) and Total is
set to Net when that value is zero. -/
def totalFallbackStep (data : Record) : Except String Record :=
  if data.total = "" ∧ data.net ≠ "" then
    match (if data.vat = "" then some (PyNum.fin ⟨0, 0⟩) else pyFloat data.vat) with
    | none => Except.error "could not convert string to float"
    | some v =>
      if pyEqZero v then Except.ok { data with total := data.net }
      else Except.ok data
  else Except.ok data

def upperCharL (l : List Char) : List Char := l.map upperCh

/-- The country extraction step (source lines 338-348): the first
matching pattern supplies the whole match, uppercased; the two known
localities are canonicalized to MALTA. -/
def countryStep (t : List Char) (data : Record) : Record :=
  match country_patterns.findSome? (fun p => reSearch true p t) with
  | some m =>
    let u := String.mk (upperCharL (group0 t m))
    { data with customerCountry := if u = "QORMI" ∨ u = "ZABBAR" then "MALTA" else u }
  | none => data

/-- Chain of regex substitutions. -/
def applySubs (subs : List (Bool × RE × List Char)) (l : List Char) : List Char :=
  subs.foldl (fun acc sub => reSub sub.1 sub.2.1 sub.2.2 acc) l

/-- The per-line cleanup of the Attard branch (source lines 364-375):
strip, apply the six substitutions, and keep the stripped line when it
is longer than three characters. -/
def attardCleanLine (line : List Char) : Option (List Char) :=
  let c := pyStripL line
  let c := applySubs (attardLineSubs.map (fun s => (s.1, s.2, ([] : List Char)))) c
  if c ≠ [] ∧ 3 < c.length then some (pyStripL c) else none

/-- Join with a semicolon and a space. -/
def joinSemi (l : List (List Char)) : List Char :=
  match l with
  | [] => []
  | x :: rest => rest.foldl (fun acc y => acc ++ (';' :: ' ' :: y)) x

/-- The first general description pattern that matches supplies its
group (source lines 390-407); the cleanup chain is applied to the
stripped group and the loop breaks on the first match even when the
cleaned text is empty. -/
def descGeneralLoop (t : List Char) : List RE → Option (List Char)
  | [] => none
  | p :: rest =>
    match reSearch true p t with
    | some m =>
      let raw := pyStripL (group1 t m)
      some (pyStripL (applySubs descGenSubs raw))
    | none => descGeneralLoop t rest

/-- The Attard multi-line-item branch of description extraction (source
lines 352-379). -/
def descAttardStep (t : List Char) (companyDir : String) (data : Record) : Record :=
  if companyDir = "Attard&Co" then
    match reSearch true descSectionPat t with
    | some m =>
      let sect := group1 t m
      let descs := (reFindAll true productLinePat sect).filterMap attardCleanLine
      if descs ≠ [] then { data with description := String.mk (joinSemi descs) }
      else data
    | none => data
  else data

/-- The general description fallback (source lines 381-407), applied
only when nothing was extracted yet. -/
def descGeneralStep (t : List Char) (data : Record) : Record :=
  if data.description = "" then
    match descGeneralLoop t description_patterns with
    | some d => { data with description := String.mk d }
    | none => data
  else data

/-- The final line-item description fallback (source lines 409-413). -/
def descLineItemStep (t : List Char) (data : Record) : Record :=
  if data.description = "" then
    match reSearch true lineItemPat t with
    | some m => { data with description := String.mk (pyStripL (group1 t m)) }
    | none => data
  else data

/-- The description extraction step (source lines 350-413). -/
def descriptionStep (t : List Char) (companyDir : String) (data : Record) : Record :=
  descLineItemStep t (descGeneralStep t (descAttardStep t companyDir data))

/-- `parse_pdf_content` (source lines 126-415): loads the configuration
(its decode error propagates), builds the record skeleton from the
configuration, then runs the extraction steps in source order; the
customer field is overwritten with the fixed name after the amount
fallback (source line 336). -/
def parse_pdf_content (src : ConfigSrc) (text : String) (companyDir : String) :
    Except String Record :=
  match load_config src with
  | Except.error e => Except.error e
  | Except.ok config =>
    let t := text.toList
    let data : Record :=
      { type := config.default_type.getD "PI",
        supplier := "",
        customer := config.customer.getD "",
        nominalAC := config.nominal_ac.getD "5000",
        date := "", invoiceNumber := "", description := "", net := "", taxCode := "",
        vat := "", total := "", customerCountry := "" }
    let data :=
      if companyDir ≠ "" then
        { data with supplier := (lookupKV config.suppliers companyDir).getD companyDir }
      else data
    let data := extractInvoiceStep t companyDir data
    let data := extractDateStep t data
    let data := dateOverrideStep config data
    let data := amountsStep t data
    match totalFallbackStep data with
    | Except.error e => Except.error e
    | Except.ok data =>
      let data := { data with customer := "IG International Ltd" }
      let data := countryStep t data
      let data := descriptionStep t companyDir data
      Except.ok data

/-! ## Validation and the batch driver -/

/-- A validation failure (the message variants of `ValidationError`). -/
inductive VErr where
  | missingFields (fields : List String)
  | invalidAmount
  | invalidDate (date : String)
  deriving DecidableEq, Repr

/-- `validate_data` (source lines 41-66): list every empty required
field; then convert the three amounts (empty means zero, a conversion
failure is an invalid-amount rejection, and the net-plus-VAT-versus-
total comparison only logs a warning); then require the date to parse
in the canonical day/month/year format. -/
def validate_data (data : Record) : Option VErr :=
  let required := [("Invoice Number", data.invoiceNumber), ("Date", data.date),
    ("Net", data.net), ("Total", data.total)]
  let missing := (required.filter (fun p => p.2 = "")).map (fun p => p.1)
  if missing ≠ [] then some (VErr.missingFields missing)
  else
    let pn := if data.net = "" then some (PyNum.fin ⟨0, 0⟩) else pyFloat data.net
    let pv := if data.vat = "" then some (PyNum.fin ⟨0, 0⟩) else pyFloat data.vat
    let pt := if data.total = "" then some (PyNum.fin ⟨0, 0⟩) else pyFloat data.total
    match pn, pv, pt with
    | some _, some _, some _ =>
      if data.date ≠ "" then
        match strptime data.date fmtDMY4 with
        | some _ => none
        | none => some (VErr.invalidDate data.date)
      else none
    | _, _, _ => some VErr.invalidAmount

/-- The absolute difference between net plus VAT and total exceeding the
two-penny tolerance (the warning condition of source line 56), on the
exact decimal model of finitely-valued amounts. -/
def mismatchWarn (net vat total : Dec) : Bool :=
  intDec 0 < Dec.sub (Dec.absD (Dec.sub (Dec.add net vat) total)) (mkDec 2 2)

/-- One document of a batch: its extracted text and the company
directory it came from. -/
structure DocInput where
  text : String
  companyDir : String
  deriving DecidableEq

/-- The outcome recorded for one document. -/
inductive Outcome where
  | success (r : Record)
  | validationError (e : VErr)
  | procError (msg : String)
  deriving Repr, DecidableEq

/-- Per-document processing of `process_pdfs` (source lines 446-594):
empty extracted text raises, the text is cleaned and parsed, the record
is validated; a `ValidationError` and any other exception are each
caught at this boundary and recorded as an error outcome. -/
def processOne (src : ConfigSrc) (doc : DocInput) : Outcome :=
  if pyStrip doc.text = "" then Outcome.procError "No text content extracted from PDF"
  else
    match parse_pdf_content src (clean_text doc.text) doc.companyDir with
    | Except.error e => Outcome.procError e
    | Except.ok data =>
      match validate_data data with
      | some ve => Outcome.validationError ve
      | none => Outcome.success data

/-- `process_pdfs` over a list of documents: every document is processed
in order, each inside its own error boundary; no outcome stops the
batch. -/
def process_pdfs (src : ConfigSrc) (docs : List DocInput) : List Outcome :=
  docs.map (processOne src)

/-- The record skeleton with every field empty (a convenient base for
stating extraction-step properties). -/
def emptyRecord : Record :=
  { type := "", supplier := "", customer := "", nominalAC := "", date := "",
    invoiceNumber := "", description := "", net := "", taxCode := "", vat := "",
    total := "", customerCountry := "" }

/-! ## Theorems -/

theorem head_of_dropWhile (p : Char → Bool) :
    ∀ l : List Char, ∀ c, (l.dropWhile p).head? = some c → p c = false := by
  intro l
  induction l with
  | nil => intro c h; simp at h
  | cons d rest ih =>
    intro c h
    rw [List.dropWhile_cons] at h
    by_cases hd : p d = true
    · rw [if_pos hd] at h
      exact ih c h
    · rw [if_neg hd] at h
      rw [List.head?_cons, Option.some.injEq] at h
      subst h
      exact Bool.eq_false_iff.mpr hd

theorem mem_collapseAux (p : Char → Bool) (rep : Char) :
    ∀ (l : List Char) (b : Bool) (x : Char), x ∈ collapseAux p rep b l →
      (x ∈ l ∧ p x = false) ∨ x = rep := by
  intro l
  induction l with
  | nil => intro b x hx; simp [collapseAux] at hx
  | cons c rest ih =>
    intro b x hx
    by_cases hc : p c = true
    · cases b with
      | true =>
        simp only [collapseAux, hc, if_true] at hx
        rcases ih true x hx with ⟨hm, hp⟩ | h
        · exact Or.inl ⟨List.mem_cons_of_mem c hm, hp⟩
        · exact Or.inr h
      | false =>
        simp only [collapseAux, hc, if_true] at hx
        rw [if_neg (by simp), List.mem_cons] at hx
        rcases hx with h | hx
        · exact Or.inr h
        · rcases ih true x hx with ⟨hm, hp⟩ | h
          · exact Or.inl ⟨List.mem_cons_of_mem c hm, hp⟩
          · exact Or.inr h
    · rw [show collapseAux p rep b (c :: rest) = c :: collapseAux p rep false rest from by
        simp [collapseAux, hc], List.mem_cons] at hx
      rcases hx with h | hx
      · subst h
        exact Or.inl ⟨List.mem_cons_self x rest, Bool.eq_false_iff.mpr hc⟩
      · rcases ih false x hx with ⟨hm, hp⟩ | h
        · exact Or.inl ⟨List.mem_cons_of_mem c hm, hp⟩
        · exact Or.inr h

theorem mem_collapseRuns (p : Char → Bool) (rep : Char) (l : List Char) (x : Char)
    (hx : x ∈ collapseRuns p rep l) : (x ∈ l ∧ p x = false) ∨ x = rep :=
  mem_collapseAux p rep l false x hx

theorem head_collapseAux_true (p : Char → Bool) (rep : Char) :
    ∀ l : List Char, ∀ c, (collapseAux p rep true l).head? = some c → p c = false := by
  intro l
  induction l with
  | nil => intro c h; simp [collapseAux] at h
  | cons d rest ih =>
    intro c h
    by_cases hd : p d = true
    · simp only [collapseAux, hd, if_true] at h
      exact ih c h
    · rw [show collapseAux p rep true (d :: rest) = d :: collapseAux p rep false rest from by
        simp [collapseAux, hd], List.head?_cons, Option.some.injEq] at h
      subst h
      exact Bool.eq_false_iff.mpr hd

theorem head_collapseRuns (p : Char → Bool) (rep : Char) (l : List Char) (c : Char)
    (hl : l.head? = some c) (hc : p c = false) :
    (collapseRuns p rep l).head? = some c := by
  cases l with
  | nil => simp at hl
  | cons d rest =>
    rw [List.head?_cons, Option.some.injEq] at hl
    subst hl
    simp [collapseRuns, collapseAux, hc]

theorem chain_collapseAux (p : Char → Bool) (rep : Char) :
    ∀ (l : List Char) (b : Bool), List.Chain' (sepRel p) (collapseAux p rep b l) := by
  intro l
  induction l with
  | nil => intro b; simp [collapseAux]
  | cons c rest ih =>
    intro b
    by_cases hc : p c = true
    · cases b with
      | true =>
        simp only [collapseAux, hc, if_true]
        exact ih true
      | false =>
        rw [show collapseAux p rep false (c :: rest) =
            rep :: collapseAux p rep true rest from by simp [collapseAux, hc]]
        rw [List.chain'_cons']
        refine ⟨?_, ih true⟩
        intro d hd
        rw [Option.mem_def] at hd
        exact Or.inr (head_collapseAux_true p rep rest d hd)
    · rw [show collapseAux p rep b (c :: rest) = c :: collapseAux p rep false rest from by
        simp [collapseAux, hc]]
      rw [List.chain'_cons']
      exact ⟨fun d _ => Or.inl (Bool.eq_false_iff.mpr hc), ih false⟩

theorem chain_collapseRuns (p : Char → Bool) (rep : Char) (l : List Char) :
    List.Chain' (sepRel p) (collapseRuns p rep l) :=
  chain_collapseAux p rep l false

theorem collapseRuns_eq_self (p : Char → Bool) (rep : Char) :
    ∀ l : List Char, (∀ x ∈ l, p x = true → x = rep) →
      List.Chain' (sepRel p) l → collapseRuns p rep l = l := by
  intro l
  induction l with
  | nil => intro _ _; rfl
  | cons c rest ih =>
    intro hmem hch
    by_cases hc : p c = true
    · have hcr : c = rep := hmem c (List.mem_cons_self c rest) hc
      have ihr : collapseRuns p rep rest = rest :=
        ih (fun x hx hp => hmem x (List.mem_cons_of_mem c hx) hp) hch.tail
      cases rest with
      | nil =>
        rw [show collapseRuns p rep [c] = [rep] from by simp [collapseRuns, collapseAux, hc]]
        rw [hcr]
      | cons d t =>
        have hpd : p d = false := by
          rcases (List.chain'_cons.mp hch).1 with h | h
          · rw [hc] at h; simp at h
          · exact h
        have ht : collapseAux p rep false t = t := by
          have h2 := ihr
          rw [show collapseRuns p rep (d :: t) = d :: collapseAux p rep false t from by
            simp [collapseRuns, collapseAux, hpd], List.cons.injEq] at h2
          exact h2.2
        rw [show collapseRuns p rep (c :: d :: t) =
            rep :: d :: collapseAux p rep false t from by
          simp [collapseRuns, collapseAux, hc, hpd]]
        rw [ht, hcr]
    · have hcf : p c = false := Bool.eq_false_iff.mpr hc
      have ihr : collapseRuns p rep rest = rest :=
        ih (fun x hx hp => hmem x (List.mem_cons_of_mem c hx) hp) hch.tail
      rw [show collapseRuns p rep (c :: rest) = c :: collapseRuns p rep rest from by
        simp [collapseRuns, collapseAux, hcf]]
      rw [ihr]

theorem capNewlines_eq_self :
    ∀ l : List Char, (∀ x ∈ l, x ≠ '\n') → capNewlines l = l := by
  intro l
  induction l with
  | nil => intro _; rfl
  | cons c rest ih =>
    intro hmem
    have hc : ¬ c = '\n' := hmem c (List.mem_cons_self c rest)
    show capAux (c :: rest) 0 = c :: rest
    rw [show capAux (c :: rest) 0 = emitNl 0 ++ c :: capAux rest 0 from by
      simp [capAux, hc]]
    rw [show capAux rest 0 = rest from
      ih (fun x hx => hmem x (List.mem_cons_of_mem c hx))]
    simp [emitNl]

theorem mem_pyStripL (l : List Char) (x : Char) (hx : x ∈ pyStripL l) : x ∈ l := by
  unfold pyStripL at hx
  rw [List.mem_reverse] at hx
  have h1 := (List.dropWhile_suffix isPySpace).sublist.subset hx
  rw [List.mem_reverse] at h1
  exact (List.dropWhile_suffix isPySpace).sublist.subset h1

theorem chain_pyStripL (R : Char → Char → Prop) (hsymm : ∀ a b, R a b → R b a)
    (l : List Char) (h : List.Chain' R l) : List.Chain' R (pyStripL l) := by
  unfold pyStripL
  have h1 : List.Chain' R (l.dropWhile isPySpace) :=
    h.suffix (List.dropWhile_suffix isPySpace)
  have h2 : List.Chain' R (l.dropWhile isPySpace).reverse := by
    rw [List.chain'_reverse]
    exact h1.imp (fun a b hab => hsymm a b hab)
  have h3 : List.Chain' R ((l.dropWhile isPySpace).reverse.dropWhile isPySpace) :=
    h2.suffix (List.dropWhile_suffix isPySpace)
  rw [List.chain'_reverse]
  exact h3.imp (fun a b hab => hsymm a b hab)

theorem dropWhile_eq_self_of_head (p : Char → Bool) (l : List Char)
    (h : ∀ c, l.head? = some c → p c = false) : l.dropWhile p = l := by
  cases l with
  | nil => simp
  | cons c rest =>
    have := h c (by simp)
    simp [List.dropWhile_cons, this]

theorem head_of_initialSegment (l m : List Char) (h : l <+: m) (hne : l ≠ []) :
    l.head? = m.head? := by
  rcases h with ⟨t, rfl⟩
  cases l with
  | nil => exact absurd rfl hne
  | cons c rest => simp

theorem head_pyStripL (l : List Char) (c : Char) (h : (pyStripL l).head? = some c) :
    isPySpace c = false := by
  unfold pyStripL at h
  set r1 := l.dropWhile isPySpace with hr1
  set r2 := r1.reverse.dropWhile isPySpace with hr2
  have hpre : r2.reverse <+: r1 := by
    have hsuf : r2 <:+ r1.reverse := List.dropWhile_suffix isPySpace
    have h2 := List.reverse_prefix.mpr hsuf
    simpa using h2
  have hne : r2.reverse ≠ [] := by
    intro hnil
    rw [hnil] at h
    simp at h
  rw [head_of_initialSegment r2.reverse r1 hpre hne] at h
  exact head_of_dropWhile isPySpace l c h

theorem last_pyStripL (l : List Char) (c : Char) (h : (pyStripL l).getLast? = some c) :
    isPySpace c = false := by
  unfold pyStripL at h
  rw [List.getLast?_reverse] at h
  exact head_of_dropWhile isPySpace (l.dropWhile isPySpace).reverse c h

theorem pyStripL_eq_self (l : List Char)
    (hh : ∀ c, l.head? = some c → isPySpace c = false)
    (hl : ∀ c, l.getLast? = some c → isPySpace c = false) : pyStripL l = l := by
  unfold pyStripL
  rw [dropWhile_eq_self_of_head isPySpace l hh]
  rw [dropWhile_eq_self_of_head isPySpace l.reverse
    (fun c hc => hl c (by rwa [List.head?_reverse] at hc))]
  exact List.reverse_reverse l

theorem noNl_collapsePySpace (l : List Char) (x : Char)
    (hx : x ∈ collapseRuns isPySpace ' ' l) : x ≠ '\n' := by
  rcases mem_collapseRuns isPySpace ' ' l x hx with ⟨_, hp⟩ | h
  · intro hxe
    subst hxe
    rw [show isPySpace '\n' = true from by decide] at hp
    simp at hp
  · subst h; decide

theorem noNl_stage3 (l : List Char) (x : Char)
    (hx : x ∈ collapseRuns isHorizWS ' '
      ((collapseRuns isPySpace ' ' l).filter isAsciiCh)) : x ≠ '\n' := by
  rcases mem_collapseRuns isHorizWS ' ' _ x hx with ⟨hm, _⟩ | h
  · exact noNl_collapsePySpace l x (List.mem_filter.mp hm).1
  · subst h; decide

/-- The newline-capping pass of `clean_text` is vacuous: its input no
longer contains any newline, because the first substitution already
replaced every whitespace run (newlines included) by a single space. -/
theorem cleanTextL_eq (l : List Char) :
    cleanTextL l = pyStripL (collapseRuns isHorizWS ' '
      ((collapseRuns isPySpace ' ' l).filter isAsciiCh)) := by
  unfold cleanTextL
  rw [capNewlines_eq_self _ (fun x hx => noNl_stage3 l x hx)]

theorem spaces_stage3 (l : List Char) (x : Char)
    (hx : x ∈ collapseRuns isHorizWS ' '
      ((collapseRuns isPySpace ' ' l).filter isAsciiCh))
    (hps : isPySpace x = true) : x = ' ' := by
  rcases mem_collapseRuns isHorizWS ' ' _ x hx with ⟨hm, hh⟩ | h
  · rw [isHorizWS, hps] at hh
    simp only [Bool.true_and, Bool.not_eq_false'] at hh
    rw [decide_eq_true_iff] at hh
    exact absurd hh (noNl_collapsePySpace l x (List.mem_filter.mp hm).1)
  · exact h

theorem chain_transport (m : List Char)
    (hsp : ∀ x ∈ m, isPySpace x = true → x = ' ')
    (h : List.Chain' (sepRel isHorizWS) m) :
    List.Chain' (sepRel isPySpace) m := by
  induction m with
  | nil => simp
  | cons a t ih =>
    rw [List.chain'_cons'] at h ⊢
    refine ⟨?_, ih (fun x hx hp => hsp x (List.mem_cons_of_mem a hx) hp) h.2⟩
    intro b hb
    by_cases pa : isPySpace a = true
    · by_cases pb : isPySpace b = true
      · have ha : a = ' ' := hsp a (List.mem_cons_self a t) pa
        have hbm : b ∈ t := by
          cases t with
          | nil => simp at hb
          | cons e u =>
            rw [List.head?_cons, Option.mem_def, Option.some.injEq] at hb
            subst hb
            exact List.mem_cons_self e u
        have hbv : b = ' ' := hsp b (List.mem_cons_of_mem a hbm) pb
        have hrel := h.1 b hb
        rw [ha, hbv] at hrel
        rcases hrel with hf | hf
        · rw [show isHorizWS ' ' = true from by decide] at hf
          simp at hf
        · rw [show isHorizWS ' ' = true from by decide] at hf
          simp at hf
      · exact Or.inr (Bool.eq_false_iff.mpr pb)
    · exact Or.inl (Bool.eq_false_iff.mpr pa)

theorem cleanForm_cleanTextL (l : List Char) : CleanForm (cleanTextL l) := by
  rw [cleanTextL_eq]
  constructor
  · intro x hx
    rcases mem_collapseRuns isHorizWS ' ' _ x (mem_pyStripL _ x hx) with ⟨hm, _⟩ | h
    · exact List.of_mem_filter hm
    · subst h; decide
  · intro x hx hps
    exact spaces_stage3 l x (mem_pyStripL _ x hx) hps
  · refine chain_pyStripL (sepRel isPySpace) (fun a b hab => hab.symm) _ ?_
    exact chain_transport _ (fun x hx hp => spaces_stage3 l x hx hp)
      (chain_collapseRuns isHorizWS ' ' _)
  · intro c hc
    exact head_pyStripL _ c hc
  · intro c hc
    exact last_pyStripL _ c hc

theorem horiz_le_pySpace (x : Char) (h : isPySpace x = false) : isHorizWS x = false := by
  rw [isHorizWS, h]
  simp

theorem cleanTextL_of_cleanForm (l : List Char) (h : CleanForm l) :
    cleanTextL l = l := by
  unfold cleanTextL
  rw [collapseRuns_eq_self isPySpace ' ' l h.spaces h.chain]
  rw [List.filter_eq_self.mpr h.ascii]
  have hsp : ∀ x ∈ l, isHorizWS x = true → x = ' ' := by
    intro x hx hh
    refine h.spaces x hx ?_
    rw [isHorizWS] at hh
    exact ((Bool.and_eq_true _ _).mp hh).1
  have hch : List.Chain' (sepRel isHorizWS) l := by
    refine h.chain.imp (fun a b hab => ?_)
    rcases hab with hf | hf
    · exact Or.inl (horiz_le_pySpace a hf)
    · exact Or.inr (horiz_le_pySpace b hf)
  rw [collapseRuns_eq_self isHorizWS ' ' l hsp hch]
  have hnl : ∀ x ∈ l, x ≠ '\n' := by
    intro x hx hxe
    subst hxe
    have := h.spaces '\n' hx (by decide)
    simp at this
  rw [capNewlines_eq_self l hnl]
  exact pyStripL_eq_self l h.headOk h.lastOk

theorem cleanTextL_idem (l : List Char) :
    cleanTextL (cleanTextL l) = cleanTextL l :=
  cleanTextL_of_cleanForm _ (cleanForm_cleanTextL l)

theorem noNl_cleanTextL (l : List Char) (x : Char) (hx : x ∈ cleanTextL l) :
    x ≠ '\n' := by
  rw [cleanTextL_eq] at hx
  exact noNl_stage3 l x (mem_pyStripL _ x hx)

/-- C8: text normalization is idempotent: applying `clean_text` twice
gives the same result as applying it once, for every input string. -/
theorem claim_C8 : ∀ t : String, clean_text (clean_text t) = clean_text t := by
  intro t
  unfold clean_text
  rw [show (String.mk (cleanTextL t.toList)).toList = cleanTextL t.toList from rfl]
  rw [cleanTextL_idem]

/-! ## Value bridges for the decimal model -/

theorem toRat_stripZeros : ∀ (s : ℕ) (n : ℤ),
    (stripZeros n s).toRat = (n : ℚ) / (10 : ℚ) ^ s := by
  intro s
  induction s with
  | zero => intro n; simp [stripZeros, Dec.toRat]
  | succ s ih =>
    intro n
    rw [stripZeros]
    by_cases h : Int.emod n 10 = 0
    · rw [if_pos h, ih]
      have hn : n = 10 * Int.ediv n 10 := by
        have h2 : n % 10 = 0 := h
        have h3 : n = 10 * (n / 10) := by omega
        exact h3
      have hcast : (n : ℚ) = 10 * (Int.ediv n 10 : ℚ) := by
        exact_mod_cast congrArg (fun z : ℤ => (z : ℚ)) hn
      rw [hcast, pow_succ]
      field_simp
      ring
    · rw [if_neg h]
      simp [Dec.toRat]

theorem toRat_mkDec (n : ℤ) (s : ℕ) : (mkDec n s).toRat = (n : ℚ) / (10 : ℚ) ^ s :=
  toRat_stripZeros s n

theorem toRat_intDec (k : ℤ) : (intDec k).toRat = (k : ℚ) := by
  simp [intDec, Dec.toRat]

theorem le_iff_toRat (a b : Dec) : a ≤ b ↔ a.toRat ≤ b.toRat := by
  show Dec.le a b ↔ _
  unfold Dec.le Dec.toRat
  rw [div_le_div_iff₀ (by positivity) (by positivity)]
  constructor
  · intro h; exact_mod_cast h
  · intro h; exact_mod_cast h

theorem toRat_div100 (d : Dec) : (Dec.div100 d).toRat = d.toRat / 100 := by
  unfold Dec.div100
  rw [toRat_mkDec]
  unfold Dec.toRat
  rw [pow_add]
  rw [show ((10 : ℚ) ^ 2 : ℚ) = 100 from by norm_num]
  rw [div_div]

theorem isWholeB_of_den_one (d : Dec) (h : d.toRat.den = 1) :
    Dec.isWholeB d = true := by
  unfold Dec.isWholeB
  set q := d.toRat with hq
  have hnum : (q.num : ℚ) = q := by
    have hd := Rat.num_div_den q
    rw [h] at hd
    simpa using hd
  have h2 : (d.n : ℚ) = (q.num : ℚ) * (10 : ℚ) ^ d.s := by
    rw [hnum, hq]
    unfold Dec.toRat
    field_simp
  have h3 : d.n = q.num * (10 : ℤ) ^ d.s := by exact_mod_cast h2
  have h4 : ((10 : ℤ) ^ d.s) ∣ d.n := ⟨q.num, by rw [h3]; ring⟩
  have h5 : Int.emod d.n ((10 : ℤ) ^ d.s) = 0 := Int.emod_eq_zero_of_dvd h4
  simp [h5]

/-! ## Claims about parse_amount -/

/-- C3: for a token whose parsed value is a whole number, the decimal
shift (divide by one hundred) applies exactly when the parsed value is at
least 10000 and the shifted value lies within the closed interval from 10
to 10000; in particular the token 57462 normalizes to 574.62 and the
token 5000 normalizes to 5000.00. -/
theorem claim_C3 :
    (∀ (t : String) (d : Dec),
        pyFloat (String.mk (amountToken t)) = some (PyNum.fin d) →
        d.toRat.den = 1 →
        parse_amount t =
          (if 10000 ≤ d.toRat ∧ 10 ≤ d.toRat / 100 ∧ d.toRat / 100 ≤ 10000
           then format2 (PyNum.fin (Dec.div100 d))
           else format2 (PyNum.fin d)))
    ∧ parse_amount "57462" = "574.62" ∧ parse_amount "5000" = "5000.00" := by
  refine ⟨?_, by decide, by decide⟩
  intro t d hp hden
  have ht : t ≠ "" := by
    intro he
    subst he
    rw [show pyFloat (String.mk (amountToken "")) = none from rfl] at hp
    exact Option.noConfusion hp
  unfold parse_amount
  rw [if_neg ht, hp]
  show shiftFormat (PyNum.fin d) = _
  rw [show shiftFormat (PyNum.fin d) =
      (if intDec 1000 ≤ d ∧ Dec.isWholeB d = true then
        if intDec 10000 ≤ d then
          if intDec 10 ≤ Dec.div100 d ∧ Dec.div100 d ≤ intDec 10000 then
            format2 (PyNum.fin (Dec.div100 d))
          else format2 (PyNum.fin d)
        else format2 (PyNum.fin d)
      else format2 (PyNum.fin d)) from rfl]
  have hW : Dec.isWholeB d = true := isWholeB_of_den_one d hden
  have hb1 : (intDec 10000 ≤ d) ↔ (10000 : ℚ) ≤ d.toRat := by
    rw [le_iff_toRat, toRat_intDec]
    norm_num
  have hb2 : (intDec 10 ≤ Dec.div100 d) ↔ (10 : ℚ) ≤ d.toRat / 100 := by
    rw [le_iff_toRat, toRat_intDec, toRat_div100]
    norm_num
  have hb3 : (Dec.div100 d ≤ intDec 10000) ↔ d.toRat / 100 ≤ (10000 : ℚ) := by
    rw [le_iff_toRat, toRat_intDec, toRat_div100]
    norm_num
  by_cases h1 : (10000 : ℚ) ≤ d.toRat
  · have h1000 : intDec 1000 ≤ d := by
      rw [le_iff_toRat, toRat_intDec]
      push_cast
      linarith
    rw [if_pos ⟨h1000, hW⟩, if_pos (hb1.mpr h1)]
    by_cases h2 : (10 : ℚ) ≤ d.toRat / 100 ∧ d.toRat / 100 ≤ (10000 : ℚ)
    · rw [if_pos ⟨hb2.mpr h2.1, hb3.mpr h2.2⟩, if_pos ⟨h1, h2.1, h2.2⟩]
    · rw [if_neg (fun hcon => h2 ⟨hb2.mp hcon.1, hb3.mp hcon.2⟩),
        if_neg (fun hcon => h2 ⟨hcon.2.1, hcon.2.2⟩)]
  · by_cases h3 : intDec 1000 ≤ d ∧ Dec.isWholeB d = true
    · rw [if_pos h3, if_neg (fun hcon => h1 (hb1.mp hcon)),
        if_neg (fun hcon => h1 hcon.1)]
    · rw [if_neg h3, if_neg (fun hcon => h1 hcon.1)]

/-- Witness for C3: instantiating the universal part at the token 57462,
whose parsed value 57462 is whole, at least 10000, and shifts into range,
so the shifted formatting applies. -/
theorem claim_C3_witness :
    parse_amount "57462" =
      (if 10000 ≤ (Dec.toRat ⟨57462, 0⟩) ∧ 10 ≤ (Dec.toRat ⟨57462, 0⟩) / 100 ∧
          (Dec.toRat ⟨57462, 0⟩) / 100 ≤ 10000
       then format2 (PyNum.fin (Dec.div100 ⟨57462, 0⟩))
       else format2 (PyNum.fin ⟨57462, 0⟩)) :=
  claim_C3.1 "57462" ⟨57462, 0⟩ (by decide) (by norm_num [Dec.toRat])

/-- C7 counterexample: the claimed normalization result 011.50 for the
token O1I.5O is wrong on the code: float formatting drops the leading
zero. -/
theorem claim_C7_cex : parse_amount "O1I.5O" ≠ "011.50" := by decide

/-- C7 (amended): the OCR digit/letter repairs are applied to the entire
token before parsing (the token O1I.5O becomes 011.50 before the float
conversion), and the normalized result is 11.50 because float formatting
does not retain the leading zero. -/
theorem claim_C7 :
    String.mk (amountToken "O1I.5O") = "011.50" ∧ parse_amount "O1I.5O" = "11.50" := by
  constructor
  · decide
  · decide

/-- C9: contrary to the claim, paragraph breaks are not preserved: the
first substitution of `clean_text` collapses every whitespace run,
newlines included, to a single space, so a three-newline run becomes one
space (not two newlines) and no output of `clean_text` ever contains a
newline. -/
theorem claim_C9 :
    clean_text "a\n\n\nb" = "a b" ∧
    ∀ t : String, (clean_text t).toList.all (fun c => !(c = '\n')) = true := by
  constructor
  · decide
  · intro t
    rw [List.all_eq_true]
    intro x hx
    have hmem : x ∈ cleanTextL t.toList := by
      simpa [clean_text] using hx
    have := noNl_cleanTextL t.toList x hmem
    simp [this]

/-! ## Frame lemmas: the steps after the customer assignment do not
touch the customer field -/

theorem countryStep_customer (t : List Char) (data : Record) :
    (countryStep t data).customer = data.customer := by
  unfold countryStep
  split
  · rfl
  · rfl

theorem descAttardStep_customer (t : List Char) (cd : String) (data : Record) :
    (descAttardStep t cd data).customer = data.customer := by
  unfold descAttardStep
  split
  · split
    · dsimp only
      split
      · rfl
      · rfl
    · rfl
  · rfl

theorem descGeneralStep_customer (t : List Char) (data : Record) :
    (descGeneralStep t data).customer = data.customer := by
  unfold descGeneralStep
  split
  · split
    · rfl
    · rfl
  · rfl

theorem descLineItemStep_customer (t : List Char) (data : Record) :
    (descLineItemStep t data).customer = data.customer := by
  unfold descLineItemStep
  split
  · split
    · rfl
    · rfl
  · rfl

theorem descriptionStep_customer (t : List Char) (cd : String) (data : Record) :
    (descriptionStep t cd data).customer = data.customer := by
  unfold descriptionStep
  rw [descLineItemStep_customer, descGeneralStep_customer, descAttardStep_customer]

/-- C10: every record produced by content parsing carries the fixed
customer name, whatever the configuration says: the assignment at
source line 336 overwrites the configured customer unconditionally, and
the remaining steps only touch the country and description fields. -/
theorem claim_C10 :
    ∀ (src : ConfigSrc) (text companyDir : String) (r : Record),
      parse_pdf_content src text companyDir = Except.ok r →
      r.customer = "IG International Ltd" := by
  intro src text companyDir r h
  unfold parse_pdf_content at h
  cases hl : load_config src with
  | error e =>
    rw [hl] at h
    exact Except.noConfusion h
  | ok config =>
    rw [hl] at h
    dsimp only at h
    split at h
    · exact Except.noConfusion h
    · simp only [Except.ok.injEq] at h
      subst h
      rw [descriptionStep_customer, countryStep_customer]

/-- Witness for C10: parsing the empty document with the default
configuration produces a record, and its customer field is the fixed
name. -/
theorem claim_C10_witness :
    ∃ r, parse_pdf_content ConfigSrc.missing "" "" = Except.ok r ∧
      r.customer = "IG International Ltd" := by
  have hr : parse_pdf_content ConfigSrc.missing "" "" = Except.ok
      { type := "PI", supplier := "", customer := "IG International Ltd",
        nominalAC := "5000", date := "", invoiceNumber := "", description := "",
        net := "", taxCode := "", vat := "", total := "", customerCountry := "" } := by
    rfl
  exact ⟨_, hr, claim_C10 ConfigSrc.missing "" "" _ hr⟩

/-- C5: the Total-from-Net fallback: whenever Total is empty after
pattern matching, Net is non-empty, and VAT is empty or converts to
zero, the assembled Total is set equal to Net; in particular a record
with Net 100.00, empty VAT and unmatched Total gets Total 100.00. -/
theorem claim_C5 :
    (∀ data : Record, data.total = "" → data.net ≠ "" →
      (data.vat = "" ∨ ∃ v, pyFloat data.vat = some v ∧ pyEqZero v = true) →
      totalFallbackStep data = Except.ok { data with total := data.net })
    ∧ totalFallbackStep { emptyRecord with net := "100.00", vat := "" } =
        Except.ok { emptyRecord with net := "100.00", vat := "", total := "100.00" } := by
  refine ⟨?_, rfl⟩
  intro data h1 h2 h3
  unfold totalFallbackStep
  rw [if_pos ⟨h1, h2⟩]
  rcases h3 with hv | ⟨v, hv, hz⟩
  · rw [if_pos hv]
    rfl
  · rw [if_neg (by
      intro hcon
      rw [hcon] at hv
      rw [show pyFloat "" = none from rfl] at hv
      exact Option.noConfusion hv), hv]
    simp [hz]

/-- Witness for C5: the universal part applied to the example record
with Net 100.00, empty VAT and empty Total. -/
theorem claim_C5_witness :
    totalFallbackStep { emptyRecord with net := "100.00" } =
      Except.ok { { emptyRecord with net := "100.00" } with
        total := ({ emptyRecord with net := "100.00" } : Record).net } :=
  claim_C5.1 { emptyRecord with net := "100.00" } rfl (by decide) (Or.inl rfl)

/-- C4: invoice-number extraction is a short-circuit fallback chain: a
successful leading pattern fixes the result whatever the later patterns
would do, an unsuccessful leading pattern defers to the rest of the
chain, and on texts matching both a higher- and a lower-priority
pattern the extracted number comes from the higher-priority capture
alone (illustrated for both companies on dual-match texts). -/
theorem claim_C4 :
    (∀ (p : RE) (rest : List RE) (t : List Char) (m : RMatch),
        reSearch true p t = some m →
        chainCapture t (p :: rest) = some (group1 t m))
    ∧ (∀ (p : RE) (rest : List RE) (t : List Char),
        reSearch true p t = none →
        chainCapture t (p :: rest) = chainCapture t rest)
    ∧ extractInvoiceStep "Invoice FD 123 Reference: 999".toList "" emptyRecord =
        { emptyRecord with invoiceNumber := "FD123" }
    ∧ extractInvoiceStep "Invoice CBM 10228019 Our Reference: 23025/".toList
        "CamelBrand" emptyRecord =
        { emptyRecord with invoiceNumber := "CBM10228019" } := by
  refine ⟨?_, ?_, by decide, by decide⟩
  · intro p rest t m h
    rw [show chainCapture t (p :: rest) =
        (match reSearch true p t with
         | some m => some (group1 t m)
         | none => chainCapture t rest) from rfl, h]
  · intro p rest t h
    rw [show chainCapture t (p :: rest) =
        (match reSearch true p t with
         | some m => some (group1 t m)
         | none => chainCapture t rest) from rfl, h]

/-- Witness for C4: the chain lemmas applied to a concrete pattern and
text: the leading pattern captures the letter a, so the chain answers
with it and never consults the rest; on a text the leading pattern
misses, the chain defers. -/
theorem claim_C4_witness :
    chainCapture "ab".toList [RE.cap (reStr "a"), RE.cap (reStr "b")] =
        some (group1 "ab".toList ⟨0, 1, some (0, 1)⟩)
    ∧ chainCapture "b".toList [RE.cap (reStr "a"), RE.cap (reStr "b")] =
        chainCapture "b".toList [RE.cap (reStr "b")] :=
  ⟨claim_C4.1 (RE.cap (reStr "a")) [RE.cap (reStr "b")] "ab".toList
      ⟨0, 1, some (0, 1)⟩ (by decide),
   claim_C4.2.1 (RE.cap (reStr "a")) [RE.cap (reStr "b")] "b".toList (by decide)⟩

/-- C6: date extraction on the ordinal month-name text does not yield
the canonical date, because the ordinal-stripping substitution is the
unanchored alternation st, nd, rd, th and also deletes the letters st
inside August: the matched text 4th August 2025 is mangled to
4 Augu 2025, which no candidate format parses, and the extracted date
stays empty; stripping only the day suffix would have parsed (the
intended string 4 August 2025 yields 04/08/2025). -/
theorem claim_C6 :
    String.mk (ordStripL "4th August 2025".toList) = "4 Augu 2025"
    ∧ dateLoop "4th August 2025".toList date_patterns = none
    ∧ (extractDateStep "4th August 2025".toList emptyRecord).date = ""
    ∧ tryFormats "4 August 2025" [fmtDBfY, fmtDbwY] = some "04/08/2025" := by
  refine ⟨by decide, by decide, ?_, by decide⟩
  unfold extractDateStep
  rw [show dateLoop "4th August 2025".toList date_patterns = none from by decide]
  rfl

/-- C1 counterexample: an invalid configuration does not abort the
batch before any document is processed: with two documents every
document is still processed, each producing its own error outcome. -/
theorem claim_C1_cex :
    process_pdfs ConfigSrc.invalid [⟨"a", ""⟩, ⟨"b", ""⟩] =
      [Outcome.procError "Error parsing config.json",
       Outcome.procError "Error parsing config.json"] := by
  decide

/-- C1 (amended): with an invalid configuration source, configuration
loading raises inside per-document parsing, the per-document handler
catches it, and the batch continues: every document receives an
outcome, none succeeds, and every document with non-empty text fails
with the configuration parse error. -/
theorem claim_C1 :
    ∀ docs : List DocInput,
      (process_pdfs ConfigSrc.invalid docs).length = docs.length
      ∧ (∀ o ∈ process_pdfs ConfigSrc.invalid docs, ∀ r, o ≠ Outcome.success r)
      ∧ (∀ doc ∈ docs, pyStrip doc.text ≠ "" →
          processOne ConfigSrc.invalid doc =
            Outcome.procError "Error parsing config.json") := by
  intro docs
  have hone : ∀ doc : DocInput, pyStrip doc.text ≠ "" →
      processOne ConfigSrc.invalid doc =
        Outcome.procError "Error parsing config.json" := by
    intro doc hne
    unfold processOne
    rw [if_neg hne]
    rw [show parse_pdf_content ConfigSrc.invalid (clean_text doc.text) doc.companyDir =
        Except.error "Error parsing config.json" from by
      unfold parse_pdf_content
      rfl]
  refine ⟨by simp [process_pdfs], ?_, fun doc _ => hone doc⟩
  intro o ho r
  rw [process_pdfs, List.mem_map] at ho
  rcases ho with ⟨doc, _, rfl⟩
  by_cases hne : pyStrip doc.text = ""
  · rw [show processOne ConfigSrc.invalid doc =
        Outcome.procError "No text content extracted from PDF" from by
      unfold processOne
      rw [if_pos hne]]
    simp
  · rw [hone doc hne]
    simp

/-- Witness for C1: the amended statement applied to a one-document
batch: the outcome recorded for the document is the configuration parse
error, not a success. -/
theorem claim_C1_witness :
    processOne ConfigSrc.invalid ⟨"a", ""⟩ =
      Outcome.procError "Error parsing config.json" :=
  (claim_C1 [⟨"a", ""⟩]).2.2 ⟨"a", ""⟩ (by decide) (by decide)

/-- C2: validation rejects exactly when a required field is empty or a
field is malformed: any empty field among invoice number, date, net,
total produces a rejection listing all missing fields; with all four
present, an unparseable net, VAT or total is a malformed-amount
rejection, an unparseable date is a rejection, and a record whose
amounts and date all parse is accepted with no condition on the
net-plus-VAT-versus-total difference (the two-penny tolerance is a
warning only), as the concrete record with net 100.00, VAT 20.00 and
total 120.03 shows. -/
theorem claim_C2 :
    (∀ data : Record,
      (data.invoiceNumber = "" ∨ data.date = "" ∨ data.net = "" ∨ data.total = "") →
      validate_data data = some (VErr.missingFields
        ((([("Invoice Number", data.invoiceNumber), ("Date", data.date),
           ("Net", data.net), ("Total", data.total)].filter
            (fun p => p.2 = "")).map (fun p => p.1)))))
    ∧ (∀ data : Record,
      data.invoiceNumber ≠ "" → data.date ≠ "" → data.net ≠ "" → data.total ≠ "" →
      (pyFloat data.net = none ∨ (data.vat ≠ "" ∧ pyFloat data.vat = none) ∨
        pyFloat data.total = none) →
      validate_data data = some VErr.invalidAmount)
    ∧ (∀ data : Record,
      data.invoiceNumber ≠ "" → data.date ≠ "" → data.net ≠ "" → data.total ≠ "" →
      strptime data.date fmtDMY4 = none →
      validate_data data ≠ none)
    ∧ (∀ data : Record,
      data.invoiceNumber ≠ "" → data.date ≠ "" → data.net ≠ "" → data.total ≠ "" →
      pyFloat data.net ≠ none → (data.vat = "" ∨ pyFloat data.vat ≠ none) →
      pyFloat data.total ≠ none → (strptime data.date fmtDMY4).isSome →
      validate_data data = none)
    ∧ validate_data ({ emptyRecord with
        invoiceNumber := "FD1", date := "04/08/2025", net := "100.00",
        vat := "20.00", total := "120.03" } : Record) = none
    ∧ mismatchWarn (mkDec 10000 2) (mkDec 2000 2) (mkDec 12003 2) = true := by
  refine ⟨?_, ?_, ?_, ?_, by decide, by decide⟩
  · intro data h
    unfold validate_data
    dsimp only
    rw [if_pos ?hne]
    case hne =>
      have hmem : ∃ q ∈ ([("Invoice Number", data.invoiceNumber), ("Date", data.date),
          ("Net", data.net), ("Total", data.total)].filter (fun p => p.2 = "")),
          True := by
        rcases h with h | h | h | h
        · exact ⟨("Invoice Number", data.invoiceNumber),
            List.mem_filter.mpr ⟨by simp, by simp [h]⟩, trivial⟩
        · exact ⟨("Date", data.date),
            List.mem_filter.mpr ⟨by simp, by simp [h]⟩, trivial⟩
        · exact ⟨("Net", data.net),
            List.mem_filter.mpr ⟨by simp, by simp [h]⟩, trivial⟩
        · exact ⟨("Total", data.total),
            List.mem_filter.mpr ⟨by simp, by simp [h]⟩, trivial⟩
      rcases hmem with ⟨q, hq, _⟩
      exact List.ne_nil_of_mem (List.mem_map_of_mem (fun p => p.1) hq)
  · intro data h1 h2 h3 h4 hbad
    unfold validate_data
    dsimp only
    rw [if_neg (by simp [h1, h2, h3, h4])]
    rcases hbad with hn | ⟨hvne, hvn⟩ | ht
    · rw [if_neg h3, hn]
    · rw [if_neg hvne, hvn]
      cases hpn : (if data.net = "" then some (PyNum.fin ⟨0, 0⟩)
          else pyFloat data.net) with
      | none => rfl
      | some a => rfl
    · rw [if_neg h4, ht]
      cases hpn : (if data.net = "" then some (PyNum.fin ⟨0, 0⟩)
          else pyFloat data.net) with
      | none => rfl
      | some a =>
        cases hpv : (if data.vat = "" then some (PyNum.fin ⟨0, 0⟩)
            else pyFloat data.vat) with
        | none => rfl
        | some b => rfl
  · intro data h1 h2 h3 h4 hdate
    unfold validate_data
    dsimp only
    rw [if_neg (by simp [h1, h2, h3, h4])]
    cases hpn : (if data.net = "" then some (PyNum.fin ⟨0, 0⟩)
        else pyFloat data.net) with
    | none => simp
    | some a =>
      cases hpv : (if data.vat = "" then some (PyNum.fin ⟨0, 0⟩)
          else pyFloat data.vat) with
      | none => simp
      | some b =>
        cases hpt : (if data.total = "" then some (PyNum.fin ⟨0, 0⟩)
            else pyFloat data.total) with
        | none => simp
        | some c =>
          rw [if_pos h2, hdate]
          simp
  · intro data h1 h2 h3 h4 hn hv ht hd
    unfold validate_data
    dsimp only
    rw [if_neg (by simp [h1, h2, h3, h4]), if_neg h3]
    cases hpn : pyFloat data.net with
    | none => exact absurd hpn hn
    | some a =>
      have hpv : ∃ b, (if data.vat = "" then some (PyNum.fin ⟨0, 0⟩)
          else pyFloat data.vat) = some b := by
        by_cases hveq : data.vat = ""
        · exact ⟨PyNum.fin ⟨0, 0⟩, by rw [if_pos hveq]⟩
        · rcases hv with hv | hv
          · exact absurd hv hveq
          · rcases Option.ne_none_iff_exists.mp hv with ⟨b, hb⟩
            exact ⟨b, by rw [if_neg hveq, hb]⟩
      rcases hpv with ⟨b, hb⟩
      rw [hb, if_neg h4]
      cases hpt : pyFloat data.total with
      | none => exact absurd hpt ht
      | some c =>
        rw [if_pos h2]
        rcases Option.isSome_iff_exists.mp hd with ⟨x, hx⟩
        rw [hx]

/-- Witness for C2: the validator applied to concrete records: the
empty record is rejected listing all four required fields, and the
record whose net-plus-VAT misses the total by three pennies is still
accepted. -/
theorem claim_C2_witness :
    validate_data emptyRecord = some (VErr.missingFields
      ((([("Invoice Number", emptyRecord.invoiceNumber), ("Date", emptyRecord.date),
         ("Net", emptyRecord.net), ("Total", emptyRecord.total)].filter
          (fun p => p.2 = "")).map (fun p => p.1))))
    ∧ validate_data ({ emptyRecord with
        invoiceNumber := "FD1", date := "04/08/2025", net := "100.00",
        vat := "20.00", total := "120.03" } : Record) = none :=
  ⟨claim_C2.1 emptyRecord (Or.inl rfl),
   claim_C2.2.2.2.1 _ (by decide) (by decide) (by decide) (by decide)
     (by decide) (Or.inr (by decide)) (by decide) (by decide)⟩

end IGExtract
